import Mathlib

/-!
Verification of the identifier-decoding and record-linkage engine of
LowM_MainSequence (src/create_ordered_AP_arrays.py).

Raw identifier strings and aperture keys are modelled as lists of
characters (Str).  NumPy string arrays have a fixed element width: the
stage-1 aperture array is created as np.array(['x.xxx']*N), whose element
width is 5 characters, and the final array is re-created with dtype |S20
(width 20).  NumPy silently truncates a longer string on assignment into
such an array, so every value stored into the stage-1 array is cut to its
first 5 characters and every value stored later is cut to its first 20
characters.  This is modelled by store5 / store20 below.

Numeric measurement columns (LMIN0/LMAX0, SNR, FLUX) are modelled as
lists of rationals.  NumPy fancy-index assignment arr[idx] = vals
succeeds when vals has the same length as idx (pairwise assignment, in
order) or length 1 (the single value is broadcast to every index);
otherwise it raises a ValueError.  This fallible operation is modelled
by npAssign, returning Option.
-/

abbrev Str := List Char

/-- Assignment into the stage-1 aperture array (element width 5). -/
def store5 (s : Str) : Str := s.take 5

/-- Assignment into the |S20 aperture array (element width 20). -/
def store20 (s : Str) : Str := s.take 20

/-- Python substring containment (pat in s). -/
def isSubstr (pat s : Str) : Bool :=
  (List.range (s.length + 1)).any (fun i => decide ((s.drop i).take pat.length = pat))

/-- Indices x of l (in ascending order) with p (l x) true; models np.where. -/
def positionsWhere (p : Str → Bool) : List Str → List Nat
  | [] => []
  | a :: rest =>
      match p a with
      | true => 0 :: (positionsWhere p rest).map (· + 1)
      | false => (positionsWhere p rest).map (· + 1)

/-- np.where(arr == key)[0]: ascending positions of key in arr. -/
def positionsOf (l : List Str) (k : Str) : List Nat :=
  positionsWhere (fun a => decide (a = k)) l

/-- Python str.split(sep=single comma). -/
def splitOnComma : Str → List Str
  | [] => [[]]
  | c :: rest =>
      match splitOnComma rest with
      | [] => [[]]
      | g :: gs => if c = ',' then [] :: g :: gs else (c :: g) :: gs

/- ### Stage 1: make_AP_arr_MMT -/

/-- The seven two-character MMT category codes of make_AP_arr_MMT. -/
def mmtCodes : List Str :=
  ["S.".toList, "A.".toList, "D.".toList, "1.".toList,
   "2.".toList, "3.".toList, "4.".toList]

/-- Raw string is exactly the no-detection marker. -/
abbrev condNA (s : Str) : Prop := s = "N/A".toList

/-- Raw string is a 6-character MMT code (slit_S_index .. slit_4_index). -/
abbrev condMMT6 (s : Str) : Prop := s.length = 6 ∧ s.take 2 ∈ mmtCodes

/-- Per-slot behaviour of make_AP_arr_MMT.  The source initializes
AP = np.array(['x.xxx']*N) (element width 5, so each stored value is
truncated to 5 characters), assigns the raw string at indices matching
the N/A rule and the seven 6-character code rules, then re-creates the
array with dtype |S20 and renames every slot still equal to 'x.xxx' to
'not_MMT'. -/
def step_MMT (s : Str) : Str :=
  let a0 : Str := "x.xxx".toList
  let a1 := if condNA s then store5 s else a0
  let a2 := if condMMT6 s then store5 s else a1
  if a2 = "x.xxx".toList then "not_MMT".toList else a2

/-- make_AP_arr_MMT: each temp index set selects slots by a predicate on
the slot's own raw string and assigns a value computed from that same
raw string, so the whole-array function is a map of the per-slot step. -/
def make_AP_arr_MMT (slit_str0 : List Str) : List Str :=
  slit_str0.map step_MMT

/- ### Stage 2: make_AP_arr_DEIMOS -/

/-- temp_index1: length 7, no low-confidence marker, not 08.-prefixed. -/
abbrev condD1 (s : Str) : Prop :=
  s.length = 7 ∧ 'f' ∉ s ∧ ¬ s.take 3 = "08.".toList

/-- temp_index2: length 7, no low-confidence marker, 08.-prefixed. -/
abbrev condD2 (s : Str) : Prop :=
  s.length = 7 ∧ 'f' ∉ s ∧ s.take 3 = "08.".toList

/-- temp_index3: length 14, no marker, both halves 08.-prefixed. -/
abbrev condD3 (s : Str) : Prop :=
  s.length = 14 ∧ 'f' ∉ s ∧ (s.drop 7).take 3 = "08.".toList ∧ s.take 3 = "08.".toList

/-- temp_index4: length 14, no marker, first half 08.-prefixed only. -/
abbrev condD4 (s : Str) : Prop :=
  s.length = 14 ∧ 'f' ∉ s ∧ s.take 3 = "08.".toList ∧ ¬ (s.drop 7).take 3 = "08.".toList

/-- Per-slot behaviour of make_AP_arr_DEIMOS; assignments happen in
source order (temp_index1 .. temp_index4), each first storing the raw
string into the width-20 array and then the relevant slice of it. -/
def step_DEIMOS (ap s : Str) : Str :=
  let a1 := if condD1 s then (store20 s).take 6 else ap
  let a2 := if condD2 s then "INVALID_KECK".toList else a1
  let a3 := if condD3 s then "INVALID_KECK".toList else a2
  if condD4 s then ((store20 s).drop 7).take 6 else a3

/-- make_AP_arr_DEIMOS: per-slot index sets, so a zipWith of the step. -/
def make_AP_arr_DEIMOS (AP slit_str0 : List Str) : List Str :=
  List.zipWith step_DEIMOS AP slit_str0

/- ### Stage 3: make_AP_arr_merged -/

/-- temp_index1: length 13, comma at index 5, no marker, instrument-2
portion (offsets 6..8) not 08.-prefixed. -/
abbrev condM1 (s : Str) : Prop :=
  s.length = 13 ∧ s.getD 5 '?' = ',' ∧ 'f' ∉ s ∧ ¬ (s.drop 6).take 3 = "08.".toList

/-- temp_index2: length 13, comma at index 5, no marker, instrument-2
portion 08.-prefixed. -/
abbrev condM2 (s : Str) : Prop :=
  s.length = 13 ∧ s.getD 5 '?' = ',' ∧ 'f' ∉ s ∧ (s.drop 6).take 3 = "08.".toList

/-- temp_index3: length above 13, marker at index 13, no 08. anywhere in
the first 13 characters. -/
abbrev condM3 (s : Str) : Prop :=
  s.length > 13 ∧ s.getD 13 '?' = 'f' ∧ ¬ isSubstr "08.".toList (s.take 13) = true

/-- Per-slot behaviour of make_AP_arr_merged. -/
def step_merged (ap s : Str) : Str :=
  let a1 := if condM1 s then (store20 s).take 12 else ap
  let a2 := if condM2 s then (store20 s).take 5 else a1
  if condM3 s then (store20 s).take 12 else a2

/-- make_AP_arr_merged as a zipWith of the per-slot step. -/
def make_AP_arr_merged (AP slit_str0 : List Str) : List Str :=
  List.zipWith step_merged AP slit_str0

/- ### Stage 4: make_AP_arr_FOCAS -/

/-- temp_index1: marker at index 0, length 7. -/
abbrev condF1 (s : Str) : Prop := s.getD 0 '?' = 'f' ∧ s.length = 7

/-- temp_index2: length 21, markers at indices 0, 7 and 14. -/
abbrev condF2 (s : Str) : Prop :=
  s.length = 21 ∧ s.getD 0 '?' = 'f' ∧ s.getD 7 '?' = 'f' ∧ s.getD 14 '?' = 'f'

/-- temp_index3: length 14, markers at indices 0 and 7. -/
abbrev condF3 (s : Str) : Prop :=
  s.length = 14 ∧ s.getD 0 '?' = 'f' ∧ s.getD 7 '?' = 'f'

/-- temp_index4: length 13, marker at index 6. -/
abbrev condF4 (s : Str) : Prop := s.length = 13 ∧ s.getD 6 '?' = 'f'

/-- temp_index5: length 14, marker at index 7, none in first 6 chars. -/
abbrev condF5 (s : Str) : Prop :=
  s.length = 14 ∧ s.getD 7 '?' = 'f' ∧ 'f' ∉ s.take 6

/-- temp_index6: length 21, marker at index 14, none in first 13 chars,
08.-prefixed. -/
abbrev condF6 (s : Str) : Prop :=
  s.length = 21 ∧ s.getD 14 '?' = 'f' ∧ 'f' ∉ s.take 13 ∧ s.take 3 = "08.".toList

/-- temp_index7: length 21, no marker in first 6 chars, markers at
indices 7 and 14. -/
abbrev condF7 (s : Str) : Prop :=
  s.length = 21 ∧ 'f' ∉ s.take 6 ∧ s.getD 7 '?' = 'f' ∧ s.getD 14 '?' = 'f'

/-- Per-slot behaviour of make_AP_arr_FOCAS, assignments in source
order temp_index1 .. temp_index7 (a later matching rule overwrites an
earlier one). -/
def step_FOCAS (ap s : Str) : Str :=
  let a1 := if condF1 s then "FOCAS".toList else ap
  let a2 := if condF2 s then "FOCAS".toList else a1
  let a3 := if condF3 s then "FOCAS".toList else a2
  let a4 := if condF4 s then (store20 s).take 5 else a3
  let a5 := if condF5 s then (store20 s).take 6 else a4
  let a6 := if condF6 s then ((store20 s).drop 7).take 6 else a5
  if condF7 s then (store20 s).take 6 else a6

/-- make_AP_arr_FOCAS as a zipWith of the per-slot step. -/
def make_AP_arr_FOCAS (AP slit_str0 : List Str) : List Str :=
  List.zipWith step_FOCAS AP slit_str0

/-- The four decoding stages in driver order (create_ordered_AP_arrays
lines 433-436): the returned ordered AP array. -/
def decodeAP (slit_str0 : List Str) : List Str :=
  make_AP_arr_FOCAS
    (make_AP_arr_merged
      (make_AP_arr_DEIMOS (make_AP_arr_MMT slit_str0) slit_str0) slit_str0)
    slit_str0

example : make_AP_arr_MMT ["N/A".toList] = ["N/A".toList] := by decide
example : make_AP_arr_MMT ["S.1234".toList] = ["S.123".toList] := by decide
example : make_AP_arr_MMT ["hello".toList] = ["not_MMT".toList] := by decide
example : decodeAP ["hello".toList] = ["not_MMT".toList] := by decide
example : decodeAP ["08.123,".toList] = ["INVALID_KECK".toList] := by decide
example : decodeAP ["f12345,".toList] = ["FOCAS".toList] := by decide
example : decodeAP ["S.123,08.123,".toList] = ["S.123".toList] := by decide
example : decodeAP ["S.123,ABCDEF,".toList] = ["S.123,ABCDEF".toList] := by decide

/- ### Joins: numpy fancy-index assignment model -/

/-- detect_X[index1]: gather the listed positions of a value column. -/
def gets (l : List ℚ) (idx : List Nat) : List ℚ :=
  idx.map (fun i => l.getD i 0)

/-- Pairwise fancy assignment arr[idx] = vals with equal lengths;
assignments happen in order, a later pair overwrites an earlier one at
the same index. -/
def npSetPairs (arr : List ℚ) : List Nat → List ℚ → List ℚ
  | i :: is, v :: vs => npSetPairs (arr.set i v) is vs
  | _, _ => arr

/-- Broadcast assignment arr[idx] = v: every listed index receives v. -/
def npSetAll (arr : List ℚ) (idx : List Nat) (v : ℚ) : List ℚ :=
  idx.foldl (fun a i => a.set i v) arr

/-- NumPy fancy-index assignment arr[idx] = vals: pairwise when the
lengths agree, broadcast when vals has length 1, otherwise a ValueError
(modelled as none). -/
def npAssign (arr : List ℚ) (idx : List Nat) (vals : List ℚ) : Option (List ℚ) :=
  if vals.length = idx.length then some (npSetPairs arr idx vals)
  else if vals.length = 1 then some (npSetAll arr idx (vals.getD 0 0))
  else none

/-- index1 of get_SNRs_FLUXs / get_LMIN0_LMAX0: data indices whose key
occurs in the master key array. -/
def idx1 (all_AP detect_AP : List Str) : List Nat :=
  (List.range detect_AP.length).filter (fun x => decide (detect_AP.getD x [] ∈ all_AP))

/-- index2: for every data index mm in order, the master positions whose
key equals detect_AP[mm] (empty for unmatched rows). -/
def idx2 (all_AP detect_AP : List Str) : List Nat :=
  (List.range detect_AP.length).flatMap (fun mm => positionsOf all_AP (detect_AP.getD mm []))

/-- get_SNRs_FLUXs: computes index1/index2 once and fancy-assigns the
five value columns (argument order as in the source). -/
def get_SNRs_FLUXs (all_AP detect_AP : List Str)
    (allNIIA allNIIB detNIIA detNIIB allHA detHA allHB detHB allHG detHG : List ℚ) :
    Option (List ℚ × List ℚ × List ℚ × List ℚ × List ℚ) :=
  let i1 := idx1 all_AP detect_AP
  let i2 := idx2 all_AP detect_AP
  do
    let a ← npAssign allNIIA i2 (gets detNIIA i1)
    let b ← npAssign allNIIB i2 (gets detNIIB i1)
    let c ← npAssign allHA i2 (gets detHA i1)
    let d ← npAssign allHB i2 (gets detHB i1)
    let e ← npAssign allHG i2 (gets detHG i1)
    pure (a, b, c, d, e)

/-- get_LMIN0_LMAX0: identical index computation, four value columns
(argument order as in the source: MMT LMIN0, MMT LMAX0, KECK LMIN0,
KECK LMAX0, each as an all/detect pair). -/
def get_LMIN0_LMAX0 (all_AP detect_AP : List Str)
    (allMMTmin detMMTmin allMMTmax detMMTmax allKmin detKmin allKmax detKmax : List ℚ) :
    Option (List ℚ × List ℚ × List ℚ × List ℚ) :=
  let i1 := idx1 all_AP detect_AP
  let i2 := idx2 all_AP detect_AP
  do
    let a ← npAssign allMMTmin i2 (gets detMMTmin i1)
    let b ← npAssign allMMTmax i2 (gets detMMTmax i1)
    let c ← npAssign allKmin i2 (gets detKmin i1)
    let d ← npAssign allKmax i2 (gets detKmax i1)
    pure (a, b, c, d)

/- ### Merged-record resolver -/

/-- One instrument side of one iteration of get_LMIN0_LMAX0_merged: the
component key is looked up in the primary catalog (capAP1); when it has
matching rows their values are fancy-assigned at the selected master
positions jj, otherwise the secondary catalog (capAP2) is consulted the
same way; when neither matches, the two wavelength arrays are returned
unchanged.  The source repeats this shape verbatim for the MMT pair
(MMTall/MMTsingle) and the Keck pair (DEIMOS/DEIMOS00). -/
def mergedSide (jj : List Nat) (capAP1 capAP2 : List Str)
    (cap1min cap1max cap2min cap2max : List ℚ) (key : Str)
    (lmin lmax : List ℚ) : Option (List ℚ × List ℚ) :=
  let i1 := positionsOf capAP1 key
  let i2 := positionsOf capAP2 key
  if i1 ≠ [] then
    (npAssign lmin jj (gets cap1min i1)).bind fun x =>
    (npAssign lmax jj (gets cap1max i1)).bind fun y => some (x, y)
  else if i2 ≠ [] then
    (npAssign lmin jj (gets cap2min i2)).bind fun x =>
    (npAssign lmax jj (gets cap2max i2)).bind fun y => some (x, y)
  else some (lmin, lmax)

/-- Loop body of get_LMIN0_LMAX0_merged for one merged key.  The key is
split at the comma (Python split(',')[0] / [1]; a key without a comma
raises an IndexError, modelled as none).  Master positions jj are
selected by comparing the MMT component with the FIRST FIVE characters
of each master key.  The MMT side consults MMTall first and MMTsingle
only when MMTall has no matching row; the Keck side likewise consults
DEIMOS then DEIMOS00; when neither catalog of a pair matches, that pair
of output arrays is left unchanged.  State st = (MMT_LMIN0, MMT_LMAX0,
KECK_LMIN0, KECK_LMAX0). -/
def mergedStep (all_AP MMTallAP MMTsingleAP DEIMOSAP DEIMOS00AP : List Str)
    (MMTallLMIN0 MMTallLMAX0 MMTsingleLMIN0 MMTsingleLMAX0
     DEIMOSLMIN0 DEIMOSLMAX0 DEIMOS00LMIN0 DEIMOS00LMAX0 : List ℚ)
    (st : List ℚ × List ℚ × List ℚ × List ℚ) (bothap : Str) :
    Option (List ℚ × List ℚ × List ℚ × List ℚ) :=
  match (splitOnComma bothap).get? 1 with
  | none => none
  | some keck =>
    let mmt := (splitOnComma bothap).getD 0 []
    let jj := positionsWhere (fun a => decide (mmt = a.take 5)) all_AP
    (mergedSide jj MMTallAP MMTsingleAP MMTallLMIN0 MMTallLMAX0
        MMTsingleLMIN0 MMTsingleLMAX0 mmt st.1 st.2.1).bind fun mm =>
    (mergedSide jj DEIMOSAP DEIMOS00AP DEIMOSLMIN0 DEIMOSLMAX0
        DEIMOS00LMIN0 DEIMOS00LMAX0 keck st.2.2.1 st.2.2.2).bind fun kk =>
    some (mm.1, mm.2, kk.1, kk.2)

/-- get_LMIN0_LMAX0_merged: the loop over the merged keys, threading the
four wavelength arrays. -/
def get_LMIN0_LMAX0_merged (all_AP : List Str) (mergedAP : List Str)
    (MMT_LMIN0 MMT_LMAX0 KECK_LMIN0 KECK_LMAX0 : List ℚ)
    (MMTallAP : List Str) (MMTallLMIN0 MMTallLMAX0 : List ℚ)
    (MMTsingleAP : List Str) (MMTsingleLMIN0 MMTsingleLMAX0 : List ℚ)
    (DEIMOSAP : List Str) (DEIMOSLMIN0 DEIMOSLMAX0 : List ℚ)
    (DEIMOS00AP : List Str) (DEIMOS00LMIN0 DEIMOS00LMAX0 : List ℚ) :
    Option (List ℚ × List ℚ × List ℚ × List ℚ) :=
  mergedAP.foldlM
    (mergedStep all_AP MMTallAP MMTsingleAP DEIMOSAP DEIMOS00AP
      MMTallLMIN0 MMTallLMAX0 MMTsingleLMIN0 MMTsingleLMAX0
      DEIMOSLMIN0 DEIMOSLMAX0 DEIMOS00LMIN0 DEIMOS00LMAX0)
    (MMT_LMIN0, MMT_LMAX0, KECK_LMIN0, KECK_LMAX0)

/-- The sentinel the driver uses to initialize every output array. -/
def sentinel : ℚ := -99.99999

/-- The driver's four single-source wavelength joins (lines 453-464):
each call passes the SAME catalog column for the MMT and the KECK detect
parameters of get_LMIN0_LMAX0. -/
def driverSingleJoins (AP MMTallAP MMTsingleAP DEIMOSAP DEIMOS00AP : List Str)
    (MMTallLMIN0 MMTallLMAX0 MMTsingleLMIN0 MMTsingleLMAX0
     DEIMOSLMIN0 DEIMOSLMAX0 DEIMOS00LMIN0 DEIMOS00LMAX0 : List ℚ) :
    Option (List ℚ × List ℚ × List ℚ × List ℚ) :=
  let init := List.replicate AP.length sentinel
  do
    let r1 ← get_LMIN0_LMAX0 AP MMTallAP init MMTallLMIN0 init MMTallLMAX0
        init MMTallLMIN0 init MMTallLMAX0
    let r2 ← get_LMIN0_LMAX0 AP MMTsingleAP r1.1 MMTsingleLMIN0 r1.2.1 MMTsingleLMAX0
        r1.2.2.1 MMTsingleLMIN0 r1.2.2.2 MMTsingleLMAX0
    let r3 ← get_LMIN0_LMAX0 AP DEIMOSAP r2.1 DEIMOSLMIN0 r2.2.1 DEIMOSLMAX0
        r2.2.2.1 DEIMOSLMIN0 r2.2.2.2 DEIMOSLMAX0
    let r4 ← get_LMIN0_LMAX0 AP DEIMOS00AP r3.1 DEIMOS00LMIN0 r3.2.1 DEIMOS00LMAX0
        r3.2.2.1 DEIMOS00LMIN0 r3.2.2.2 DEIMOS00LMAX0
    pure r4

/-- The catalog row joined to a master key: the first data row holding
that key (stated from the spec's join description, for comparison with
the implementation). -/
def rowFor (detect_AP : List Str) (k : Str) : Option Nat :=
  (List.range detect_AP.length).find? (fun r => decide (detect_AP.getD r [] = k))

/-- Spec-side description of one joined value column: every master
position holding a catalog key receives that row's value, every other
position keeps its current value. -/
def joinSpec (all_AP detect_AP : List Str) (allX detX outX : List ℚ) : Prop :=
  ∀ i, i < all_AP.length →
    outX.getD i 0 =
      match rowFor detect_AP (all_AP.getD i []) with
      | some r => detX.getD r 0
      | none => allX.getD i 0

example :
    get_SNRs_FLUXs ["A".toList, "B".toList] ["B".toList]
      [0, 0] [0, 0] [5] [6] [0, 0] [7] [0, 0] [8] [0, 0] [9] =
      some ([0, 5], [0, 6], [0, 7], [0, 8], [0, 9]) := by decide

example :
    get_SNRs_FLUXs ["A".toList, "A".toList, "B".toList] ["A".toList, "B".toList]
      [0, 0, 0] [0, 0, 0] [1, 2] [1, 2] [0, 0, 0] [1, 2] [0, 0, 0] [1, 2] [0, 0, 0] [1, 2] =
      none := by decide

example :
    mergedStep ["S.123,ABCDEF".toList, "S.123".toList] ["S.123".toList] [] [] []
      [7] [8] [] [] [] [] [] []
      ([0, 0], [0, 0], [0, 0], [0, 0]) "S.123,ABCDEF".toList =
      some ([7, 7], [8, 8], [0, 0], [0, 0]) := by decide

/- ### Helper lemmas -/

theorem getD_set_self {α : Type} (l : List α) (i : Nat) (v d : α) (h : i < l.length) :
    (l.set i v).getD i d = v := by
  induction l generalizing i with
  | nil => simp at h
  | cons a rest ih =>
    cases i with
    | zero => rfl
    | succ j => exact ih j (by simpa using h)

theorem getD_set_ne {α : Type} (l : List α) {i j : Nat} (v d : α) (h : i ≠ j) :
    (l.set i v).getD j d = l.getD j d := by
  induction l generalizing i j with
  | nil => rfl
  | cons a rest ih =>
    cases i with
    | zero =>
      cases j with
      | zero => exact absurd rfl h
      | succ y => rfl
    | succ x =>
      cases j with
      | zero => rfl
      | succ y => exact ih (fun hxy => h (by rw [hxy]))

theorem getD_mem_of_lt {α : Type} (l : List α) (i : Nat) (d : α) (h : i < l.length) :
    l.getD i d ∈ l := by
  induction l generalizing i with
  | nil => simp at h
  | cons a rest ih =>
    cases i with
    | zero => exact List.mem_cons_self a rest
    | succ j => exact List.mem_cons_of_mem a (ih j (by simpa using h))

theorem mem_iff_getD {α : Type} (l : List α) (k d : α) :
    k ∈ l ↔ ∃ x, x < l.length ∧ l.getD x d = k := by
  constructor
  · intro hk
    induction l with
    | nil => simp at hk
    | cons a rest ih =>
      rcases List.mem_cons.mp hk with h | h
      · exact ⟨0, by simp, h.symm⟩
      · rcases ih h with ⟨x, hx, hgd⟩
        exact ⟨x + 1, by simpa using hx, hgd⟩
  · rintro ⟨x, hx, rfl⟩
    exact getD_mem_of_lt l x d hx

theorem npSetPairs_length (idx : List Nat) :
    ∀ (arr : List ℚ) (vals : List ℚ), (npSetPairs arr idx vals).length = arr.length := by
  induction idx with
  | nil => intro arr vals; cases vals <;> rfl
  | cons i is ih =>
    intro arr vals
    cases vals with
    | nil => rfl
    | cons v vs => rw [npSetPairs, ih, List.length_set]

theorem npSetPairs_not_mem (idx : List Nat) :
    ∀ (arr : List ℚ) (vals : List ℚ) (i : Nat) (d : ℚ), i ∉ idx →
      (npSetPairs arr idx vals).getD i d = arr.getD i d := by
  induction idx with
  | nil => intro arr vals i d _; cases vals <;> rfl
  | cons j js ih =>
    intro arr vals i d hn
    cases vals with
    | nil => rfl
    | cons v vs =>
      rw [npSetPairs, ih _ _ _ _ (fun h => hn (List.mem_cons_of_mem j h))]
      exact getD_set_ne arr v d (fun h => hn (h ▸ List.mem_cons_self j js))

theorem npSetAll_length (idx : List Nat) :
    ∀ (arr : List ℚ) (v : ℚ), (npSetAll arr idx v).length = arr.length := by
  induction idx with
  | nil => intro arr v; rfl
  | cons j js ih => intro arr v; rw [npSetAll, List.foldl_cons, ← npSetAll, ih, List.length_set]

theorem npSetAll_not_mem (idx : List Nat) :
    ∀ (arr : List ℚ) (v : ℚ) (i : Nat) (d : ℚ), i ∉ idx →
      (npSetAll arr idx v).getD i d = arr.getD i d := by
  induction idx with
  | nil => intro arr v i d _; rfl
  | cons j js ih =>
    intro arr v i d hn
    rw [npSetAll, List.foldl_cons, ← npSetAll,
      ih _ _ _ _ (fun h => hn (List.mem_cons_of_mem j h))]
    exact getD_set_ne arr v d (fun h => hn (h ▸ List.mem_cons_self j js))

theorem npSetAll_mem (idx : List Nat) :
    ∀ (arr : List ℚ) (v : ℚ) (i : Nat) (d : ℚ), i ∈ idx → i < arr.length →
      (npSetAll arr idx v).getD i d = v := by
  induction idx with
  | nil => intro arr v i d h _; simp at h
  | cons j js ih =>
    intro arr v i d hm hlt
    rw [npSetAll, List.foldl_cons, ← npSetAll]
    by_cases hin : i ∈ js
    · exact ih _ _ _ _ hin (by rw [List.length_set]; exact hlt)
    · have hij : i = j := by
        rcases List.mem_cons.mp hm with h | h
        · exact h
        · exact absurd h hin
      rw [npSetAll_not_mem js _ _ _ _ hin, hij]
      exact getD_set_self arr j v d (hij ▸ hlt)

theorem npAssign_length (arr : List ℚ) (idx : List Nat) (vals : List ℚ) (out : List ℚ)
    (h : npAssign arr idx vals = some out) : out.length = arr.length := by
  unfold npAssign at h
  split at h
  · rw [← Option.some.inj h, npSetPairs_length]
  · split at h
    · rw [← Option.some.inj h, npSetAll_length]
    · exact absurd h (by simp)

theorem npAssign_not_mem (arr : List ℚ) (idx : List Nat) (vals : List ℚ) (out : List ℚ)
    (i : Nat) (d : ℚ) (h : npAssign arr idx vals = some out) (hn : i ∉ idx) :
    out.getD i d = arr.getD i d := by
  unfold npAssign at h
  split at h
  · rw [← Option.some.inj h]; exact npSetPairs_not_mem idx arr vals i d hn
  · split at h
    · rw [← Option.some.inj h]; exact npSetAll_not_mem idx arr _ i d hn
    · exact absurd h (by simp)

theorem npAssign_single (arr : List ℚ) (idx : List Nat) (v : ℚ) :
    npAssign arr idx [v] = some (npSetAll arr idx v) := by
  unfold npAssign
  split
  · rename_i hlen
    rcases List.length_eq_one.mp hlen.symm with ⟨i0, hi0⟩
    subst hi0
    rfl
  · rfl

theorem mem_positionsWhere (p : Str → Bool) (l : List Str) (x : Nat) :
    x ∈ positionsWhere p l ↔ x < l.length ∧ p (l.getD x []) = true := by
  induction l generalizing x with
  | nil => simp [positionsWhere]
  | cons a rest ih =>
    cases hx : p a with
    | true =>
      cases x with
      | zero => simp [positionsWhere, hx]
      | succ y =>
        simp [positionsWhere, hx, List.mem_map, ih y, List.getD_cons_succ,
          Nat.succ_lt_succ_iff]
    | false =>
      cases x with
      | zero => simp [positionsWhere, hx]
      | succ y =>
        simp [positionsWhere, hx, List.mem_map, ih y, List.getD_cons_succ,
          Nat.succ_lt_succ_iff]

theorem mem_positionsOf (l : List Str) (k : Str) (x : Nat) :
    x ∈ positionsOf l k ↔ x < l.length ∧ l.getD x [] = k := by
  rw [positionsOf, mem_positionsWhere]
  simp

theorem positionsOf_ne_nil (l : List Str) (k : Str) :
    positionsOf l k ≠ [] ↔ k ∈ l := by
  constructor
  · intro h
    rcases List.exists_mem_of_ne_nil _ h with ⟨x, hx⟩
    rcases (mem_positionsOf l k x).mp hx with ⟨h1, h2⟩
    exact (mem_iff_getD l k []).mpr ⟨x, h1, h2⟩
  · intro hk h
    rcases (mem_iff_getD l k []).mp hk with ⟨x, h1, h2⟩
    have hx : x ∈ positionsOf l k := (mem_positionsOf l k x).mpr ⟨h1, h2⟩
    rw [h] at hx
    simp at hx

theorem mem_idx1 (all_AP detect_AP : List Str) (mm : Nat) :
    mm ∈ idx1 all_AP detect_AP ↔
      mm < detect_AP.length ∧ detect_AP.getD mm [] ∈ all_AP := by
  simp [idx1, List.mem_filter, List.mem_range]

theorem not_mem_idx2 (all_AP detect_AP : List Str) (i : Nat)
    (h : all_AP.getD i [] ∉ detect_AP) : i ∉ idx2 all_AP detect_AP := by
  intro hmem
  rcases List.mem_flatMap.mp hmem with ⟨mm, hmm, hip⟩
  rcases (mem_positionsOf _ _ _).mp hip with ⟨_, hkey⟩
  exact h (hkey ▸ getD_mem_of_lt detect_AP mm [] (List.mem_range.mp hmm))

theorem rowFor_some {detect : List Str} {k : Str} {r : Nat} (h : rowFor detect k = some r) :
    r < detect.length ∧ detect.getD r [] = k := by
  have h1 := List.find?_some h
  have h2 := List.mem_of_find?_eq_some h
  exact ⟨List.mem_range.mp h2, by simpa using h1⟩

theorem rowFor_none {detect : List Str} {k : Str} (h : rowFor detect k = none) :
    ∀ r, r < detect.length → detect.getD r [] ≠ k := by
  intro r hr
  have := List.find?_eq_none.mp h r (List.mem_range.mpr hr)
  simpa using this

theorem flatMap_all_nil : ∀ (l : List Nat) (P : Nat → List Nat),
    (∀ x ∈ l, P x = []) → l.flatMap P = [] := by
  intro l P
  induction l with
  | nil => intro _; rfl
  | cons a rest ih =>
    intro h
    rw [List.flatMap_cons, h a (List.mem_cons_self a rest), List.nil_append]
    exact ih (fun x hx => h x (List.mem_cons_of_mem a hx))

theorem flatMap_singletons : ∀ (l : List Nat) (P : Nat → List Nat) (p : Nat → Bool),
    (∀ x ∈ l, (p x = true → P x = [(P x).getD 0 0]) ∧ (p x = false → P x = [])) →
    l.flatMap P = (l.filter p).map (fun x => (P x).getD 0 0) := by
  intro l P p
  induction l with
  | nil => intro _; rfl
  | cons a rest ih =>
    intro h
    rw [List.flatMap_cons, ih (fun x hx => h x (List.mem_cons_of_mem a hx))]
    cases hp : p a with
    | true =>
      rw [(h a (List.mem_cons_self a rest)).1 hp]
      simp [List.filter_cons, hp]
    | false =>
      rw [(h a (List.mem_cons_self a rest)).2 hp]
      simp [List.filter_cons, hp]

theorem flatMap_unique : ∀ (l : List Nat) (P : Nat → List Nat) (r : Nat), l.Nodup →
    r ∈ l → (∀ x ∈ l, x ≠ r → P x = []) → l.flatMap P = P r := by
  intro l P r
  induction l with
  | nil => intro _ hr _; simp at hr
  | cons a rest ih =>
    intro hnd hr h
    rcases List.nodup_cons.mp hnd with ⟨hna, hndr⟩
    rw [List.flatMap_cons]
    by_cases har : a = r
    · subst har
      rw [flatMap_all_nil rest P
        (fun x hx => h x (List.mem_cons_of_mem a hx) (fun hxa => hna (hxa ▸ hx)))]
      simp
    · rw [h a (List.mem_cons_self a rest) har, List.nil_append]
      refine ih hndr ?_ (fun x hx => h x (List.mem_cons_of_mem a hx))
      rcases List.mem_cons.mp hr with h1 | h1
      · exact absurd h1.symm har
      · exact h1

theorem npSetPairs_map_getD : ∀ (l : List Nat) (g : Nat → Nat) (f : Nat → ℚ)
    (arr : List ℚ) (r : Nat) (d : ℚ), r ∈ l →
    (∀ a ∈ l, ∀ b ∈ l, g a = g b → a = b) → g r < arr.length →
    (npSetPairs arr (l.map g) (l.map f)).getD (g r) d = f r := by
  intro l g f
  induction l with
  | nil => intro arr r d hr _ _; simp at hr
  | cons a rest ih =>
    intro arr r d hr hinj hlt
    rw [List.map_cons, List.map_cons, npSetPairs]
    by_cases hrr : r ∈ rest
    · exact ih _ r d hrr
        (fun x hx y hy => hinj x (List.mem_cons_of_mem a hx) y (List.mem_cons_of_mem a hy))
        (by rw [List.length_set]; exact hlt)
    · have hra : r = a := by
        rcases List.mem_cons.mp hr with h | h
        · exact h
        · exact absurd h hrr
      subst hra
      have hnot : g r ∉ rest.map g := by
        intro hmem
        rcases List.mem_map.mp hmem with ⟨b, hb, hgb⟩
        have hbr : b = r :=
          hinj b (List.mem_cons_of_mem r hb) r (List.mem_cons_self r rest) hgb
        exact hrr (hbr ▸ hb)
      rw [npSetPairs_not_mem _ _ _ _ _ hnot]
      exact getD_set_self arr (g r) (f r) d hlt

/-- Core join lemma: on a key array without duplicated matched keys (or
with exactly one matched catalog row, in which case numpy broadcasts its
value), the index1/index2 fancy assignment of one value column succeeds
and realizes the spec-side join description. -/
theorem join_core (all_AP detect_AP : List Str) (allX detX : List ℚ)
    (hdist : ∀ i ∈ List.range detect_AP.length, ∀ j ∈ List.range detect_AP.length,
      detect_AP.getD i [] = detect_AP.getD j [] → i = j)
    (hlen : allX.length = all_AP.length)
    (hcase : (∀ k ∈ detect_AP, (positionsOf all_AP k).length ≤ 1) ∨
      (idx1 all_AP detect_AP).length = 1) :
    ∃ out,
      npAssign allX (idx2 all_AP detect_AP) (gets detX (idx1 all_AP detect_AP)) = some out ∧
      joinSpec all_AP detect_AP allX detX out := by
  rcases hcase with hcount | h1
  · -- every matched key occupies exactly one master position
    have hPfact : ∀ mm ∈ List.range detect_AP.length,
        ((fun x => decide (detect_AP.getD x [] ∈ all_AP)) mm = true →
          positionsOf all_AP (detect_AP.getD mm []) =
            [(positionsOf all_AP (detect_AP.getD mm [])).getD 0 0]) ∧
        ((fun x => decide (detect_AP.getD x [] ∈ all_AP)) mm = false →
          positionsOf all_AP (detect_AP.getD mm []) = []) := by
      intro mm hmm
      constructor
      · intro hp
        have hin : detect_AP.getD mm [] ∈ all_AP := by simpa using hp
        have hne : positionsOf all_AP (detect_AP.getD mm []) ≠ [] :=
          (positionsOf_ne_nil _ _).mpr hin
        have hle := hcount (detect_AP.getD mm [])
          (getD_mem_of_lt detect_AP mm [] (List.mem_range.mp hmm))
        have hone : (positionsOf all_AP (detect_AP.getD mm [])).length = 1 := by
          have := List.length_pos.mpr hne
          omega
        rcases List.length_eq_one.mp hone with ⟨x, hx⟩
        rw [hx]
        rfl
      · intro hp
        have hnin : detect_AP.getD mm [] ∉ all_AP := by simpa using hp
        by_contra hne
        exact hnin ((positionsOf_ne_nil _ _).mp hne)
    have hidx2 : idx2 all_AP detect_AP =
        (idx1 all_AP detect_AP).map
          (fun mm => (positionsOf all_AP (detect_AP.getD mm [])).getD 0 0) :=
      flatMap_singletons _ _ _ hPfact
    have hglt : ∀ mm ∈ idx1 all_AP detect_AP,
        (positionsOf all_AP (detect_AP.getD mm [])).getD 0 0 < all_AP.length ∧
        all_AP.getD ((positionsOf all_AP (detect_AP.getD mm [])).getD 0 0) [] =
          detect_AP.getD mm [] := by
      intro mm hmm
      rcases (mem_idx1 _ _ mm).mp hmm with ⟨hmM, hmin⟩
      have hp : (fun x => decide (detect_AP.getD x [] ∈ all_AP)) mm = true := by
        simpa using hmin
      have hsing := (hPfact mm (List.mem_range.mpr hmM)).1 hp
      have hmem0 : (positionsOf all_AP (detect_AP.getD mm [])).getD 0 0 ∈
          positionsOf all_AP (detect_AP.getD mm []) := by
        rw [hsing]
        exact List.mem_cons_self _ _
      exact (mem_positionsOf _ _ _).mp hmem0
    have hinj : ∀ a ∈ idx1 all_AP detect_AP, ∀ b ∈ idx1 all_AP detect_AP,
        (positionsOf all_AP (detect_AP.getD a [])).getD 0 0 =
        (positionsOf all_AP (detect_AP.getD b [])).getD 0 0 → a = b := by
      intro a ha b hb hg
      have h1 := (hglt a ha).2
      have h2 := (hglt b hb).2
      rw [hg] at h1
      refine hdist a ?_ b ?_ (h1.symm.trans h2)
      · exact List.mem_range.mpr ((mem_idx1 _ _ a).mp ha).1
      · exact List.mem_range.mpr ((mem_idx1 _ _ b).mp hb).1
    have hgets : gets detX (idx1 all_AP detect_AP) =
        (idx1 all_AP detect_AP).map (fun mm => detX.getD mm 0) := rfl
    refine ⟨npSetPairs allX
      ((idx1 all_AP detect_AP).map
        (fun mm => (positionsOf all_AP (detect_AP.getD mm [])).getD 0 0))
      ((idx1 all_AP detect_AP).map (fun mm => detX.getD mm 0)), ?_, ?_⟩
    · rw [hidx2, hgets, npAssign, if_pos (by simp)]
    · intro i hi
      cases hrow : rowFor detect_AP (all_AP.getD i []) with
      | some r =>
        rcases rowFor_some hrow with ⟨hrM, hrk⟩
        have hrin : r ∈ idx1 all_AP detect_AP := by
          refine (mem_idx1 _ _ r).mpr ⟨hrM, ?_⟩
          rw [hrk]
          exact getD_mem_of_lt all_AP i [] hi
        have hp : (fun x => decide (detect_AP.getD x [] ∈ all_AP)) r = true := by
          have := ((mem_idx1 _ _ r).mp hrin).2
          simpa using this
        have hsing := (hPfact r (List.mem_range.mpr hrM)).1 hp
        have himem : i ∈ positionsOf all_AP (detect_AP.getD r []) :=
          (mem_positionsOf _ _ _).mpr ⟨hi, hrk.symm⟩
        have hgr : (positionsOf all_AP (detect_AP.getD r [])).getD 0 0 = i := by
          rw [hsing] at himem
          rcases List.mem_cons.mp himem with h | h
          · exact h.symm
          · simp at h
        rw [← hgr]
        exact npSetPairs_map_getD _ _ _ allX r 0 hrin hinj (by rw [hlen, hgr]; exact hi)
      | none =>
        have hnot : i ∉ (idx1 all_AP detect_AP).map
            (fun mm => (positionsOf all_AP (detect_AP.getD mm [])).getD 0 0) := by
          intro hmem
          rcases List.mem_map.mp hmem with ⟨mm, hmm, hgmm⟩
          have hkey := (hglt mm hmm).2
          rw [hgmm] at hkey
          exact rowFor_none hrow mm ((mem_idx1 _ _ mm).mp hmm).1 hkey.symm
        exact npSetPairs_not_mem _ _ _ _ _ hnot
  · -- exactly one matched catalog row: broadcast
    rcases List.length_eq_one.mp h1 with ⟨r, hr1⟩
    have hrmem : r ∈ idx1 all_AP detect_AP := by rw [hr1]; exact List.mem_cons_self r []
    rcases (mem_idx1 _ _ r).mp hrmem with ⟨hrM, hrin⟩
    have hPempty : ∀ mm ∈ List.range detect_AP.length, mm ≠ r →
        positionsOf all_AP (detect_AP.getD mm []) = [] := by
      intro mm hmm hmr
      by_contra hne
      have hmem : mm ∈ idx1 all_AP detect_AP :=
        (mem_idx1 _ _ mm).mpr ⟨List.mem_range.mp hmm, (positionsOf_ne_nil _ _).mp hne⟩
      rw [hr1] at hmem
      rcases List.mem_cons.mp hmem with h | h
      · exact hmr h
      · simp at h
    have hidx2 : idx2 all_AP detect_AP = positionsOf all_AP (detect_AP.getD r []) :=
      flatMap_unique _ _ r (List.nodup_range _) (List.mem_range.mpr hrM) hPempty
    have hgets : gets detX (idx1 all_AP detect_AP) = [detX.getD r 0] := by
      rw [hr1]; rfl
    refine ⟨npSetAll allX (positionsOf all_AP (detect_AP.getD r [])) (detX.getD r 0),
      ?_, ?_⟩
    · rw [hidx2, hgets]
      exact npAssign_single _ _ _
    · intro i hi
      cases hrow : rowFor detect_AP (all_AP.getD i []) with
      | some r2 =>
        rcases rowFor_some hrow with ⟨hr2M, hr2k⟩
        have hr2in : r2 ∈ idx1 all_AP detect_AP := by
          refine (mem_idx1 _ _ r2).mpr ⟨hr2M, ?_⟩
          rw [hr2k]
          exact getD_mem_of_lt all_AP i [] hi
        have hr2r : r2 = r := by
          rw [hr1] at hr2in
          rcases List.mem_cons.mp hr2in with h | h
          · exact h
          · simp at h
        subst hr2r
        have himem : i ∈ positionsOf all_AP (detect_AP.getD r2 []) :=
          (mem_positionsOf _ _ _).mpr ⟨hi, hr2k.symm⟩
        exact npSetAll_mem _ _ _ _ _ himem (by rw [hlen]; exact hi)
      | none =>
        have hnot : i ∉ positionsOf all_AP (detect_AP.getD r []) := by
          intro hmem
          rcases (mem_positionsOf _ _ _).mp hmem with ⟨_, hkey⟩
          exact rowFor_none hrow r hrM hkey.symm
        exact npSetAll_not_mem _ _ _ _ _ hnot

/- ### Per-slot and per-stage access lemmas -/

theorem getD_take {α : Type} (l : List α) (n i : Nat) (d : α) (h : i < n) :
    (l.take n).getD i d = l.getD i d := by
  induction l generalizing n i with
  | nil => simp
  | cons a rest ih =>
    cases n with
    | zero => omega
    | succ m =>
      cases i with
      | zero => rfl
      | succ j => exact ih m j (by omega)

theorem mem_take_of_getD (s : Str) (c : Char) (i k : Nat) (hik : i < k)
    (hil : i < s.length) (h : s.getD i '?' = c) : c ∈ s.take k := by
  refine (mem_iff_getD (s.take k) c '?').mpr ⟨i, ?_, ?_⟩
  · rw [List.length_take]; omega
  · rw [getD_take _ _ _ _ hik]; exact h

theorem store20_take (s : Str) (k : Nat) (hk : k ≤ 20) : (store20 s).take k = s.take k := by
  rw [store20, List.take_take]
  congr 1
  omega

theorem store20_drop7_take6 (s : Str) : ((store20 s).drop 7).take 6 = (s.drop 7).take 6 := by
  rw [store20, show (20 : Nat) = 7 + 13 from rfl, List.drop_take, List.take_take]
  norm_num

theorem map_getD (f : Str → Str) (l : List Str) (i : Nat) (d : Str) (h : i < l.length) :
    (l.map f).getD i d = f (l.getD i d) := by
  induction l generalizing i with
  | nil => simp at h
  | cons a rest ih =>
    cases i with
    | zero => rfl
    | succ j => exact ih j (by simpa using h)

theorem zipWith_getD (f : Str → Str → Str) (l1 l2 : List Str) (i : Nat) (d : Str)
    (h1 : i < l1.length) (h2 : i < l2.length) :
    (List.zipWith f l1 l2).getD i d = f (l1.getD i d) (l2.getD i d) := by
  induction l1 generalizing l2 i with
  | nil => simp at h1
  | cons a rest ih =>
    cases l2 with
    | nil => simp at h2
    | cons b rest2 =>
      cases i with
      | zero => rfl
      | succ j => exact ih rest2 j (by simpa using h1) (by simpa using h2)

theorem make_AP_arr_MMT_length (slits : List Str) :
    (make_AP_arr_MMT slits).length = slits.length := List.length_map _ _

theorem make_AP_arr_DEIMOS_length (AP slits : List Str) (h : AP.length = slits.length) :
    (make_AP_arr_DEIMOS AP slits).length = slits.length := by
  rw [make_AP_arr_DEIMOS, List.length_zipWith, h, Nat.min_self]

theorem make_AP_arr_merged_length (AP slits : List Str) (h : AP.length = slits.length) :
    (make_AP_arr_merged AP slits).length = slits.length := by
  rw [make_AP_arr_merged, List.length_zipWith, h, Nat.min_self]

theorem make_AP_arr_FOCAS_length (AP slits : List Str) (h : AP.length = slits.length) :
    (make_AP_arr_FOCAS AP slits).length = slits.length := by
  rw [make_AP_arr_FOCAS, List.length_zipWith, h, Nat.min_self]

theorem make_AP_arr_MMT_getD (slits : List Str) (i : Nat) (h : i < slits.length) :
    (make_AP_arr_MMT slits).getD i [] = step_MMT (slits.getD i []) :=
  map_getD _ _ _ _ h

theorem make_AP_arr_DEIMOS_getD (AP slits : List Str) (i : Nat)
    (hAP : AP.length = slits.length) (h : i < slits.length) :
    (make_AP_arr_DEIMOS AP slits).getD i [] =
      step_DEIMOS (AP.getD i []) (slits.getD i []) :=
  zipWith_getD _ _ _ _ _ (by rw [hAP]; exact h) h

theorem make_AP_arr_merged_getD (AP slits : List Str) (i : Nat)
    (hAP : AP.length = slits.length) (h : i < slits.length) :
    (make_AP_arr_merged AP slits).getD i [] =
      step_merged (AP.getD i []) (slits.getD i []) :=
  zipWith_getD _ _ _ _ _ (by rw [hAP]; exact h) h

theorem make_AP_arr_FOCAS_getD (AP slits : List Str) (i : Nat)
    (hAP : AP.length = slits.length) (h : i < slits.length) :
    (make_AP_arr_FOCAS AP slits).getD i [] =
      step_FOCAS (AP.getD i []) (slits.getD i []) :=
  zipWith_getD _ _ _ _ _ (by rw [hAP]; exact h) h

theorem decodeAP_length (slits : List Str) : (decodeAP slits).length = slits.length := by
  rw [decodeAP]
  rw [make_AP_arr_FOCAS_length _ _
    (make_AP_arr_merged_length _ _
      (make_AP_arr_DEIMOS_length _ _ (make_AP_arr_MMT_length slits)))]

theorem decodeAP_getD (slits : List Str) (i : Nat) (h : i < slits.length) :
    (decodeAP slits).getD i [] =
      step_FOCAS
        (step_merged (step_DEIMOS (step_MMT (slits.getD i [])) (slits.getD i []))
          (slits.getD i []))
        (slits.getD i []) := by
  rw [decodeAP,
    make_AP_arr_FOCAS_getD _ _ _
      (make_AP_arr_merged_length _ _
        (make_AP_arr_DEIMOS_length _ _ (make_AP_arr_MMT_length slits))) h,
    make_AP_arr_merged_getD _ _ _
      (make_AP_arr_DEIMOS_length _ _ (make_AP_arr_MMT_length slits)) h,
    make_AP_arr_DEIMOS_getD _ _ _ (make_AP_arr_MMT_length slits) h,
    make_AP_arr_MMT_getD _ _ h]

/- ### Per-slot decoder clause lemmas -/

theorem step_MMT_NA (s : Str) (h : condNA s) : step_MMT s = s := by
  rw [h]
  decide

theorem step_MMT_code (s : Str) (h : condMMT6 s) : step_MMT s = s.take 5 := by
  have hx : ¬ store5 s = "x.xxx".toList := by
    intro heq
    have h25 : (s.take 5).take 2 = s.take 2 := by
      rw [List.take_take]
      norm_num
    have ht : s.take 2 = ['x', '.'] := by
      rw [← h25]
      have heq5 : s.take 5 = "x.xxx".toList := heq
      rw [heq5]
      decide
    have h2 := h.2
    rw [ht] at h2
    exact absurd h2 (by decide)
  simp only [step_MMT]
  rw [if_pos h, if_neg hx]
  rfl

theorem step_MMT_unmatched (s : Str) (h1 : ¬ condNA s) (h2 : ¬ condMMT6 s) :
    step_MMT s = "not_MMT".toList := by
  simp only [step_MMT]
  rw [if_neg h2, if_neg h1, if_pos rfl]

theorem step_DEIMOS_1 (ap s : Str) (h : condD1 s) : step_DEIMOS ap s = s.take 6 := by
  have hn4 : ¬ condD4 s := fun h4 => by have a := h.1; have b := h4.1; omega
  have hn3 : ¬ condD3 s := fun h3 => by have a := h.1; have b := h3.1; omega
  have hn2 : ¬ condD2 s := fun h2 => h.2.2 h2.2.2
  simp only [step_DEIMOS]
  rw [if_neg hn4, if_neg hn3, if_neg hn2, if_pos h, store20_take s 6 (by norm_num)]

theorem step_DEIMOS_2 (ap s : Str) (h : condD2 s) :
    step_DEIMOS ap s = "INVALID_KECK".toList := by
  have hn4 : ¬ condD4 s := fun h4 => by have a := h.1; have b := h4.1; omega
  have hn3 : ¬ condD3 s := fun h3 => by have a := h.1; have b := h3.1; omega
  simp only [step_DEIMOS]
  rw [if_neg hn4, if_neg hn3, if_pos h]

theorem step_DEIMOS_3 (ap s : Str) (h : condD3 s) :
    step_DEIMOS ap s = "INVALID_KECK".toList := by
  have hn4 : ¬ condD4 s := fun h4 => h4.2.2.2 h.2.2.1
  simp only [step_DEIMOS]
  rw [if_neg hn4, if_pos h]

theorem step_DEIMOS_4 (ap s : Str) (h : condD4 s) :
    step_DEIMOS ap s = (s.drop 7).take 6 := by
  simp only [step_DEIMOS]
  rw [if_pos h, store20_drop7_take6]

theorem step_DEIMOS_unmatched (ap s : Str) (h1 : ¬ condD1 s) (h2 : ¬ condD2 s)
    (h3 : ¬ condD3 s) (h4 : ¬ condD4 s) : step_DEIMOS ap s = ap := by
  simp only [step_DEIMOS]
  rw [if_neg h4, if_neg h3, if_neg h2, if_neg h1]

theorem step_merged_1 (ap s : Str) (h : condM1 s) : step_merged ap s = s.take 12 := by
  have hn3 : ¬ condM3 s := fun h3 => by have a := h.1; have b := h3.1; omega
  have hn2 : ¬ condM2 s := fun h2 => h.2.2.2 h2.2.2.2
  simp only [step_merged]
  rw [if_neg hn3, if_neg hn2, if_pos h, store20_take s 12 (by norm_num)]

theorem step_merged_2 (ap s : Str) (h : condM2 s) : step_merged ap s = s.take 5 := by
  have hn3 : ¬ condM3 s := fun h3 => by have a := h.1; have b := h3.1; omega
  simp only [step_merged]
  rw [if_neg hn3, if_pos h, store20_take s 5 (by norm_num)]

theorem step_merged_3 (ap s : Str) (h : condM3 s) : step_merged ap s = s.take 12 := by
  simp only [step_merged]
  rw [if_pos h, store20_take s 12 (by norm_num)]

theorem step_merged_unmatched (ap s : Str) (h1 : ¬ condM1 s) (h2 : ¬ condM2 s)
    (h3 : ¬ condM3 s) : step_merged ap s = ap := by
  simp only [step_merged]
  rw [if_neg h3, if_neg h2, if_neg h1]

theorem step_FOCAS_1 (ap s : Str) (h : condF1 s) : step_FOCAS ap s = "FOCAS".toList := by
  have hn7 : ¬ condF7 s := fun hx => by have a := h.2; have b := hx.1; omega
  have hn6 : ¬ condF6 s := fun hx => by have a := h.2; have b := hx.1; omega
  have hn5 : ¬ condF5 s := fun hx => by have a := h.2; have b := hx.1; omega
  have hn4 : ¬ condF4 s := fun hx => by have a := h.2; have b := hx.1; omega
  have hn3 : ¬ condF3 s := fun hx => by have a := h.2; have b := hx.1; omega
  have hn2 : ¬ condF2 s := fun hx => by have a := h.2; have b := hx.1; omega
  simp only [step_FOCAS]
  rw [if_neg hn7, if_neg hn6, if_neg hn5, if_neg hn4, if_neg hn3, if_neg hn2, if_pos h]

theorem step_FOCAS_2 (ap s : Str) (h : condF2 s) : step_FOCAS ap s = "FOCAS".toList := by
  have hn7 : ¬ condF7 s := fun hx =>
    hx.2.1 (mem_take_of_getD s 'f' 0 6 (by norm_num) (by have a := h.1; omega) h.2.1)
  have hn6 : ¬ condF6 s := fun hx =>
    hx.2.2.1 (mem_take_of_getD s 'f' 0 13 (by norm_num) (by have a := h.1; omega) h.2.1)
  have hn5 : ¬ condF5 s := fun hx => by have a := h.1; have b := hx.1; omega
  have hn4 : ¬ condF4 s := fun hx => by have a := h.1; have b := hx.1; omega
  have hn3 : ¬ condF3 s := fun hx => by have a := h.1; have b := hx.1; omega
  simp only [step_FOCAS]
  rw [if_neg hn7, if_neg hn6, if_neg hn5, if_neg hn4, if_neg hn3, if_pos h]

theorem step_FOCAS_3 (ap s : Str) (h : condF3 s) : step_FOCAS ap s = "FOCAS".toList := by
  have hn7 : ¬ condF7 s := fun hx => by have a := h.1; have b := hx.1; omega
  have hn6 : ¬ condF6 s := fun hx => by have a := h.1; have b := hx.1; omega
  have hn5 : ¬ condF5 s := fun hx =>
    hx.2.2 (mem_take_of_getD s 'f' 0 6 (by norm_num) (by have a := h.1; omega) h.2.1)
  have hn4 : ¬ condF4 s := fun hx => by have a := h.1; have b := hx.1; omega
  simp only [step_FOCAS]
  rw [if_neg hn7, if_neg hn6, if_neg hn5, if_neg hn4, if_pos h]

theorem step_FOCAS_4 (ap s : Str) (h : condF4 s) : step_FOCAS ap s = s.take 5 := by
  have hn7 : ¬ condF7 s := fun hx => by have a := h.1; have b := hx.1; omega
  have hn6 : ¬ condF6 s := fun hx => by have a := h.1; have b := hx.1; omega
  have hn5 : ¬ condF5 s := fun hx => by have a := h.1; have b := hx.1; omega
  simp only [step_FOCAS]
  rw [if_neg hn7, if_neg hn6, if_neg hn5, if_pos h, store20_take s 5 (by norm_num)]

theorem step_FOCAS_5 (ap s : Str) (h : condF5 s) : step_FOCAS ap s = s.take 6 := by
  have hn7 : ¬ condF7 s := fun hx => by have a := h.1; have b := hx.1; omega
  have hn6 : ¬ condF6 s := fun hx => by have a := h.1; have b := hx.1; omega
  simp only [step_FOCAS]
  rw [if_neg hn7, if_neg hn6, if_pos h, store20_take s 6 (by norm_num)]

theorem step_FOCAS_6 (ap s : Str) (h : condF6 s) :
    step_FOCAS ap s = (s.drop 7).take 6 := by
  have hn7 : ¬ condF7 s := fun hx =>
    h.2.2.1 (mem_take_of_getD s 'f' 7 13 (by norm_num) (by have a := h.1; omega) hx.2.2.1)
  simp only [step_FOCAS]
  rw [if_neg hn7, if_pos h, store20_drop7_take6]

theorem step_FOCAS_7 (ap s : Str) (h : condF7 s) : step_FOCAS ap s = s.take 6 := by
  simp only [step_FOCAS]
  rw [if_pos h, store20_take s 6 (by norm_num)]

theorem step_FOCAS_unmatched (ap s : Str) (h1 : ¬ condF1 s) (h2 : ¬ condF2 s)
    (h3 : ¬ condF3 s) (h4 : ¬ condF4 s) (h5 : ¬ condF5 s) (h6 : ¬ condF6 s)
    (h7 : ¬ condF7 s) : step_FOCAS ap s = ap := by
  simp only [step_FOCAS]
  rw [if_neg h7, if_neg h6, if_neg h5, if_neg h4, if_neg h3, if_neg h2, if_neg h1]


/- ### Claim C1 -/

/-- C1 (counterexample): the claim states that a 6-character raw string
with category code S. is kept verbatim by make_AP_arr_MMT; in fact the
raw string "S.1234" is stored as "S.123", because the stage-1 numpy
array has element width 5 (it is created from the 5-character
placeholder) and assignment silently truncates.  So the slot does not
equal the raw string. -/
theorem C1_counterexample :
    make_AP_arr_MMT ["S.1234".toList] = ["S.123".toList] ∧
    ¬ ("S.123".toList : Str) = "S.1234".toList :=
  ⟨by decide, by decide⟩

/-- C1 (amended): make_AP_arr_MMT preserves length; a slot whose raw
string is exactly "N/A" keeps it unchanged; a slot whose raw string is a
6-character string starting with one of the seven category codes
receives the FIRST FIVE characters of the raw string (the element width
of the stage-1 array truncates the sixth character, in practice the
trailing comma delimiter); every other slot receives "not_MMT". -/
theorem C1_amended (slits : List Str) :
    (make_AP_arr_MMT slits).length = slits.length ∧
    ∀ i, i < slits.length →
      (condNA (slits.getD i []) →
        (make_AP_arr_MMT slits).getD i [] = slits.getD i []) ∧
      (condMMT6 (slits.getD i []) →
        (make_AP_arr_MMT slits).getD i [] = (slits.getD i []).take 5) ∧
      (¬ condNA (slits.getD i []) → ¬ condMMT6 (slits.getD i []) →
        (make_AP_arr_MMT slits).getD i [] = "not_MMT".toList) := by
  refine ⟨make_AP_arr_MMT_length slits, fun i hi => ⟨?_, ?_, ?_⟩⟩
  · intro h
    rw [make_AP_arr_MMT_getD slits i hi, step_MMT_NA _ h]
  · intro h
    rw [make_AP_arr_MMT_getD slits i hi, step_MMT_code _ h]
  · intro h1 h2
    rw [make_AP_arr_MMT_getD slits i hi, step_MMT_unmatched _ h1 h2]

/-- C1 (witness): the amended claim applied to the concrete input
array ["S.1234"], slot 0. -/
theorem C1_amended_witness :
    0 < ([("S.1234".toList : Str)] : List Str).length ∧
    condMMT6 (([("S.1234".toList : Str)] : List Str).getD 0 []) ∧
    (make_AP_arr_MMT ["S.1234".toList]).getD 0 [] = ("S.1234".toList : Str).take 5 :=
  ⟨by decide, by decide,
    ((C1_amended ["S.1234".toList]).2 0 (by decide)).2.1 (by decide)⟩

/- ### Claim C4 -/

/-- C4 (counterexample): the claim states that a run in which a slot of
the aperture array still holds the placeholder after stage 4 fails with
a data-integrity error, so that no successfully returned result holds
the placeholder.  In fact the engine has no such check: the raw string
"hello" matches no decoder rule at any stage, and the four-stage decode
returns normally with the placeholder "not_MMT" as that slot's key. -/
theorem C4_counterexample :
    decodeAP ["hello".toList] = ["not_MMT".toList] := by decide

/-- C4 (amended): the engine performs no placeholder check and cannot
fail: whenever a slot's raw string matches none of the decoder rules of
the four stages, the decode pipeline returns normally and that slot of
the returned aperture array holds the placeholder "not_MMT". -/
theorem C4_amended (slits : List Str) (i : Nat) (hi : i < slits.length)
    (h1 : ¬ condNA (slits.getD i [])) (h2 : ¬ condMMT6 (slits.getD i []))
    (hd1 : ¬ condD1 (slits.getD i [])) (hd2 : ¬ condD2 (slits.getD i []))
    (hd3 : ¬ condD3 (slits.getD i [])) (hd4 : ¬ condD4 (slits.getD i []))
    (hm1 : ¬ condM1 (slits.getD i [])) (hm2 : ¬ condM2 (slits.getD i []))
    (hm3 : ¬ condM3 (slits.getD i []))
    (hf1 : ¬ condF1 (slits.getD i [])) (hf2 : ¬ condF2 (slits.getD i []))
    (hf3 : ¬ condF3 (slits.getD i [])) (hf4 : ¬ condF4 (slits.getD i []))
    (hf5 : ¬ condF5 (slits.getD i [])) (hf6 : ¬ condF6 (slits.getD i []))
    (hf7 : ¬ condF7 (slits.getD i [])) :
    (decodeAP slits).getD i [] = "not_MMT".toList := by
  rw [decodeAP_getD slits i hi, step_MMT_unmatched _ h1 h2,
    step_DEIMOS_unmatched _ _ hd1 hd2 hd3 hd4,
    step_merged_unmatched _ _ hm1 hm2 hm3,
    step_FOCAS_unmatched _ _ hf1 hf2 hf3 hf4 hf5 hf6 hf7]

/-- C4 (witness): the amended claim applied to the concrete input
array ["hello"], slot 0. -/
theorem C4_amended_witness :
    0 < ([("hello".toList : Str)] : List Str).length ∧
    (decodeAP ["hello".toList]).getD 0 [] = "not_MMT".toList :=
  ⟨by decide,
    C4_amended ["hello".toList] 0 (by decide) (by decide) (by decide) (by decide)
      (by decide) (by decide) (by decide) (by decide) (by decide) (by decide)
      (by decide) (by decide) (by decide) (by decide) (by decide) (by decide)
      (by decide)⟩

/- ### Claim C6 -/

/-- C6 (counterexample): the claim states that every 7-character raw
string starting with "08." becomes "INVALID_KECK"; in fact the code also
requires the string to contain no low-confidence marker, so the
7-character raw string "08.ff1," (which contains the marker) is left
untouched by make_AP_arr_DEIMOS and keeps the value "not_MMT" assigned
by stage 1 instead of becoming "INVALID_KECK". -/
theorem C6_counterexample :
    make_AP_arr_DEIMOS (make_AP_arr_MMT ["08.ff1,".toList]) ["08.ff1,".toList] =
      ["not_MMT".toList] ∧
    ¬ make_AP_arr_DEIMOS (make_AP_arr_MMT ["08.ff1,".toList]) ["08.ff1,".toList] =
      ["INVALID_KECK".toList] :=
  ⟨by decide, by decide⟩

/-- C6 (amended): stage-2 decoding (make_AP_arr_DEIMOS): a 7-character
raw string containing no low-confidence marker and not starting with
"08." is replaced by its first 6 characters; a 7-character raw string
containing no low-confidence marker and starting with "08." becomes
"INVALID_KECK"; a 14-character raw string with no marker whose both
halves start with "08." becomes "INVALID_KECK"; and such a 14-character
string where only the first half starts with "08." is replaced by its
characters at offsets 7 through 12. -/
theorem C6_amended (AP slits : List Str) (hAP : AP.length = slits.length)
    (i : Nat) (hi : i < slits.length) :
    (condD1 (slits.getD i []) →
      (make_AP_arr_DEIMOS AP slits).getD i [] = (slits.getD i []).take 6) ∧
    (condD2 (slits.getD i []) →
      (make_AP_arr_DEIMOS AP slits).getD i [] = "INVALID_KECK".toList) ∧
    (condD3 (slits.getD i []) →
      (make_AP_arr_DEIMOS AP slits).getD i [] = "INVALID_KECK".toList) ∧
    (condD4 (slits.getD i []) →
      (make_AP_arr_DEIMOS AP slits).getD i [] = ((slits.getD i []).drop 7).take 6) := by
  refine ⟨fun h => ?_, fun h => ?_, fun h => ?_, fun h => ?_⟩ <;>
    rw [make_AP_arr_DEIMOS_getD AP slits i hAP hi]
  · exact step_DEIMOS_1 _ _ h
  · exact step_DEIMOS_2 _ _ h
  · exact step_DEIMOS_3 _ _ h
  · exact step_DEIMOS_4 _ _ h

/-- C6 (witness): the amended claim applied to the concrete aperture
array ["not_MMT"] and raw-string array ["123456,"], slot 0 (a Keck
detection truncated to its 6-character code). -/
theorem C6_amended_witness :
    ([("not_MMT".toList : Str)] : List Str).length =
      ([("123456,".toList : Str)] : List Str).length ∧
    0 < ([("123456,".toList : Str)] : List Str).length ∧
    condD1 (([("123456,".toList : Str)] : List Str).getD 0 []) ∧
    (make_AP_arr_DEIMOS ["not_MMT".toList] ["123456,".toList]).getD 0 [] =
      ("123456,".toList : Str).take 6 :=
  ⟨by decide, by decide, by decide,
    (C6_amended ["not_MMT".toList] ["123456,".toList] (by decide) 0 (by decide)).1
      (by decide)⟩

/- ### Claim C7 -/

/-- C7: stage-3 decoding (make_AP_arr_merged): a 13-character raw string
with a comma at index 5, no low-confidence marker, and an instrument-2
portion (offsets 6..8) not equal to "08." is replaced by its first 12
characters (the merged two-part key); the same shape whose instrument-2
portion equals "08." is replaced by its first 5 characters; and a raw
string longer than 13 characters whose character at index 13 is the
marker and whose first 13 characters contain no "08." substring is
replaced by its first 12 characters. -/
theorem C7_merged_stage (AP slits : List Str) (hAP : AP.length = slits.length)
    (i : Nat) (hi : i < slits.length) :
    (condM1 (slits.getD i []) →
      (make_AP_arr_merged AP slits).getD i [] = (slits.getD i []).take 12) ∧
    (condM2 (slits.getD i []) →
      (make_AP_arr_merged AP slits).getD i [] = (slits.getD i []).take 5) ∧
    (condM3 (slits.getD i []) →
      (make_AP_arr_merged AP slits).getD i [] = (slits.getD i []).take 12) := by
  refine ⟨fun h => ?_, fun h => ?_, fun h => ?_⟩ <;>
    rw [make_AP_arr_merged_getD AP slits i hAP hi]
  · exact step_merged_1 _ _ h
  · exact step_merged_2 _ _ h
  · exact step_merged_3 _ _ h

/-- C7 (witness): the claim applied to the concrete aperture array
["not_MMT"] and raw-string array ["S.123,ABCDEF,"], slot 0 (a merged
record whose canonical key is the 12-character two-part code). -/
theorem C7_merged_stage_witness :
    ([("not_MMT".toList : Str)] : List Str).length =
      ([("S.123,ABCDEF,".toList : Str)] : List Str).length ∧
    0 < ([("S.123,ABCDEF,".toList : Str)] : List Str).length ∧
    condM1 (([("S.123,ABCDEF,".toList : Str)] : List Str).getD 0 []) ∧
    (make_AP_arr_merged ["not_MMT".toList] ["S.123,ABCDEF,".toList]).getD 0 [] =
      ("S.123,ABCDEF,".toList : Str).take 12 :=
  ⟨by decide, by decide, by decide,
    (C7_merged_stage ["not_MMT".toList] ["S.123,ABCDEF,".toList] (by decide) 0
      (by decide)).1 (by decide)⟩

/- ### Claim C8 -/

/-- C8: stage-4 decoding (make_AP_arr_FOCAS): raw strings consisting
only of low-confidence detections (length 7 with the marker at index 0;
length 14 with markers at indices 0 and 7; length 21 with markers at
indices 0, 7 and 14) are replaced by the fixed key "FOCAS"; composite
strings mixing an instrument detection with low-confidence detections
keep only the non-low-confidence instrument code: length 13 with the
marker at index 6 keeps its first 5 characters; length 14 with the
marker at index 7 and none in the first 6 keeps its first 6 characters;
length 21 with the marker at index 14 only and an "08."-leading first
half keeps offsets 7 through 12; length 21 with markers at indices 7 and
14 and none in the first 6 keeps its first 6 characters. -/
theorem C8_FOCAS_stage (AP slits : List Str) (hAP : AP.length = slits.length)
    (i : Nat) (hi : i < slits.length) :
    (condF1 (slits.getD i []) →
      (make_AP_arr_FOCAS AP slits).getD i [] = "FOCAS".toList) ∧
    (condF3 (slits.getD i []) →
      (make_AP_arr_FOCAS AP slits).getD i [] = "FOCAS".toList) ∧
    (condF2 (slits.getD i []) →
      (make_AP_arr_FOCAS AP slits).getD i [] = "FOCAS".toList) ∧
    (condF4 (slits.getD i []) →
      (make_AP_arr_FOCAS AP slits).getD i [] = (slits.getD i []).take 5) ∧
    (condF5 (slits.getD i []) →
      (make_AP_arr_FOCAS AP slits).getD i [] = (slits.getD i []).take 6) ∧
    (condF6 (slits.getD i []) →
      (make_AP_arr_FOCAS AP slits).getD i [] = ((slits.getD i []).drop 7).take 6) ∧
    (condF7 (slits.getD i []) →
      (make_AP_arr_FOCAS AP slits).getD i [] = (slits.getD i []).take 6) := by
  refine ⟨fun h => ?_, fun h => ?_, fun h => ?_, fun h => ?_, fun h => ?_,
    fun h => ?_, fun h => ?_⟩ <;>
    rw [make_AP_arr_FOCAS_getD AP slits i hAP hi]
  · exact step_FOCAS_1 _ _ h
  · exact step_FOCAS_3 _ _ h
  · exact step_FOCAS_2 _ _ h
  · exact step_FOCAS_4 _ _ h
  · exact step_FOCAS_5 _ _ h
  · exact step_FOCAS_6 _ _ h
  · exact step_FOCAS_7 _ _ h

/-- C8 (witness): the claim applied to the concrete aperture array
["not_MMT"] and raw-string array ["f12345,"], slot 0 (a single
low-confidence detection canonicalized to "FOCAS"). -/
theorem C8_FOCAS_stage_witness :
    ([("not_MMT".toList : Str)] : List Str).length =
      ([("f12345,".toList : Str)] : List Str).length ∧
    0 < ([("f12345,".toList : Str)] : List Str).length ∧
    condF1 (([("f12345,".toList : Str)] : List Str).getD 0 []) ∧
    (make_AP_arr_FOCAS ["not_MMT".toList] ["f12345,".toList]).getD 0 [] =
      "FOCAS".toList :=
  ⟨by decide, by decide, by decide,
    (C8_FOCAS_stage ["not_MMT".toList] ["f12345,".toList] (by decide) 0
      (by decide)).1 (by decide)⟩

/- ### Join claims -/

theorem get_SNRs_FLUXs_components (all_AP detect_AP : List Str)
    (a1 a2 d1 d2 a3 d3 a4 d4 a5 d5 o1 o2 o3 o4 o5 : List ℚ)
    (h : get_SNRs_FLUXs all_AP detect_AP a1 a2 d1 d2 a3 d3 a4 d4 a5 d5 =
      some (o1, o2, o3, o4, o5)) :
    npAssign a1 (idx2 all_AP detect_AP) (gets d1 (idx1 all_AP detect_AP)) = some o1 ∧
    npAssign a2 (idx2 all_AP detect_AP) (gets d2 (idx1 all_AP detect_AP)) = some o2 ∧
    npAssign a3 (idx2 all_AP detect_AP) (gets d3 (idx1 all_AP detect_AP)) = some o3 ∧
    npAssign a4 (idx2 all_AP detect_AP) (gets d4 (idx1 all_AP detect_AP)) = some o4 ∧
    npAssign a5 (idx2 all_AP detect_AP) (gets d5 (idx1 all_AP detect_AP)) = some o5 := by
  simp only [get_SNRs_FLUXs] at h
  cases e1 : npAssign a1 (idx2 all_AP detect_AP) (gets d1 (idx1 all_AP detect_AP)) with
  | none => rw [e1] at h; exact Option.noConfusion h
  | some x1 =>
  rw [e1] at h
  cases e2 : npAssign a2 (idx2 all_AP detect_AP) (gets d2 (idx1 all_AP detect_AP)) with
  | none => rw [e2] at h; exact Option.noConfusion h
  | some x2 =>
  rw [e2] at h
  cases e3 : npAssign a3 (idx2 all_AP detect_AP) (gets d3 (idx1 all_AP detect_AP)) with
  | none => rw [e3] at h; exact Option.noConfusion h
  | some x3 =>
  rw [e3] at h
  cases e4 : npAssign a4 (idx2 all_AP detect_AP) (gets d4 (idx1 all_AP detect_AP)) with
  | none => rw [e4] at h; exact Option.noConfusion h
  | some x4 =>
  rw [e4] at h
  cases e5 : npAssign a5 (idx2 all_AP detect_AP) (gets d5 (idx1 all_AP detect_AP)) with
  | none => rw [e5] at h; exact Option.noConfusion h
  | some x5 =>
  rw [e5] at h
  have h2 : (some (x1, x2, x3, x4, x5) : Option _) = some (o1, o2, o3, o4, o5) := h
  have h3 := Option.some.inj h2
  rw [Prod.mk.injEq, Prod.mk.injEq, Prod.mk.injEq, Prod.mk.injEq] at h3
  obtain ⟨rfl, rfl, rfl, rfl, rfl⟩ := h3
  exact ⟨rfl, rfl, rfl, rfl, rfl⟩

/-- C2 (counterexample): the claim states the single-source join also
works when one key occupies multiple master-list positions.  In fact,
with the key "A" at two master positions and two matched catalog rows
(keys "A" and "B"), index2 has three entries while the gathered value
array has two, and the numpy fancy assignment raises a shape-mismatch
ValueError: the join returns no result at all instead of assigning
values. -/
theorem C2_counterexample :
    get_SNRs_FLUXs ["A".toList, "A".toList, "B".toList] ["A".toList, "B".toList]
      [0, 0, 0] [0, 0, 0] [1, 2] [1, 2] [0, 0, 0] [1, 2] [0, 0, 0] [1, 2] [0, 0, 0] [1, 2] =
      none := by decide

/-- C2 (amended): the single-source join (get_SNRs_FLUXs and
get_LMIN0_LMAX0) behaves as claimed PROVIDED the catalog keys are
pairwise distinct and either (a) no catalog key occupies more than one
master-list position, or (b) exactly one catalog row is matched (numpy
then broadcasts its single value to every position sharing its key):
the join succeeds, every master position holding a matched catalog key
receives that row's value, every other master position keeps its
current value, and unmatched catalog rows are dropped (joinSpec).  When
two or more rows match and a matched key occupies several positions the
join instead fails with a shape-mismatch error. -/
theorem C2_amended (all_AP detect_AP : List Str)
    (hdist : ∀ i ∈ List.range detect_AP.length, ∀ j ∈ List.range detect_AP.length,
      detect_AP.getD i [] = detect_AP.getD j [] → i = j)
    (hcase : (∀ k ∈ detect_AP, (positionsOf all_AP k).length ≤ 1) ∨
      (idx1 all_AP detect_AP).length = 1) :
    (∀ a1 a2 a3 a4 a5 d1 d2 d3 d4 d5 : List ℚ,
      a1.length = all_AP.length → a2.length = all_AP.length →
      a3.length = all_AP.length → a4.length = all_AP.length →
      a5.length = all_AP.length →
      ∃ o1 o2 o3 o4 o5,
        get_SNRs_FLUXs all_AP detect_AP a1 a2 d1 d2 a3 d3 a4 d4 a5 d5 =
          some (o1, o2, o3, o4, o5) ∧
        joinSpec all_AP detect_AP a1 d1 o1 ∧ joinSpec all_AP detect_AP a2 d2 o2 ∧
        joinSpec all_AP detect_AP a3 d3 o3 ∧ joinSpec all_AP detect_AP a4 d4 o4 ∧
        joinSpec all_AP detect_AP a5 d5 o5) ∧
    (∀ b1 b2 b3 b4 e1 e2 e3 e4 : List ℚ,
      b1.length = all_AP.length → b2.length = all_AP.length →
      b3.length = all_AP.length → b4.length = all_AP.length →
      ∃ p1 p2 p3 p4,
        get_LMIN0_LMAX0 all_AP detect_AP b1 e1 b2 e2 b3 e3 b4 e4 =
          some (p1, p2, p3, p4) ∧
        joinSpec all_AP detect_AP b1 e1 p1 ∧ joinSpec all_AP detect_AP b2 e2 p2 ∧
        joinSpec all_AP detect_AP b3 e3 p3 ∧ joinSpec all_AP detect_AP b4 e4 p4) := by
  constructor
  · intro a1 a2 a3 a4 a5 d1 d2 d3 d4 d5 h1 h2 h3 h4 h5
    obtain ⟨o1, ho1, hs1⟩ := join_core all_AP detect_AP a1 d1 hdist h1 hcase
    obtain ⟨o2, ho2, hs2⟩ := join_core all_AP detect_AP a2 d2 hdist h2 hcase
    obtain ⟨o3, ho3, hs3⟩ := join_core all_AP detect_AP a3 d3 hdist h3 hcase
    obtain ⟨o4, ho4, hs4⟩ := join_core all_AP detect_AP a4 d4 hdist h4 hcase
    obtain ⟨o5, ho5, hs5⟩ := join_core all_AP detect_AP a5 d5 hdist h5 hcase
    refine ⟨o1, o2, o3, o4, o5, ?_, hs1, hs2, hs3, hs4, hs5⟩
    simp only [get_SNRs_FLUXs]
    rw [ho1, ho2, ho3, ho4, ho5]
    rfl
  · intro b1 b2 b3 b4 e1 e2 e3 e4 h1 h2 h3 h4
    obtain ⟨p1, hp1, hq1⟩ := join_core all_AP detect_AP b1 e1 hdist h1 hcase
    obtain ⟨p2, hp2, hq2⟩ := join_core all_AP detect_AP b2 e2 hdist h2 hcase
    obtain ⟨p3, hp3, hq3⟩ := join_core all_AP detect_AP b3 e3 hdist h3 hcase
    obtain ⟨p4, hp4, hq4⟩ := join_core all_AP detect_AP b4 e4 hdist h4 hcase
    refine ⟨p1, p2, p3, p4, ?_, hq1, hq2, hq3, hq4⟩
    simp only [get_LMIN0_LMAX0]
    rw [hp1, hp2, hp3, hp4]
    rfl

/-- C2 (witness): the amended claim applied to the concrete master key
array ["A", "B"] and the catalog with single row "B". -/
theorem C2_amended_witness :
    ∃ o1 o2 o3 o4 o5,
      get_SNRs_FLUXs ["A".toList, "B".toList] ["B".toList]
        [0, 0] [0, 0] [5] [6] [0, 0] [7] [0, 0] [8] [0, 0] [9] =
        some (o1, o2, o3, o4, o5) ∧
      joinSpec ["A".toList, "B".toList] ["B".toList] [0, 0] [5] o1 ∧
      joinSpec ["A".toList, "B".toList] ["B".toList] [0, 0] [6] o2 ∧
      joinSpec ["A".toList, "B".toList] ["B".toList] [0, 0] [7] o3 ∧
      joinSpec ["A".toList, "B".toList] ["B".toList] [0, 0] [8] o4 ∧
      joinSpec ["A".toList, "B".toList] ["B".toList] [0, 0] [9] o5 :=
  (C2_amended ["A".toList, "B".toList] ["B".toList] (by decide)
    (Or.inl (by decide))).1 [0, 0] [0, 0] [0, 0] [0, 0] [0, 0] [5] [6] [7] [8] [9]
    (by decide) (by decide) (by decide) (by decide) (by decide)

/-- C3 (counterexample): the claim states that a slot set by the join of
catalog A is left unchanged by the later join of catalog B even when B
also has a row matching that slot's key.  In fact the join has no
sentinel-only safety: joining A (key "K", value 1) onto the sentinel
arrays sets the slot to 1, and then joining B (key "K", value 2) onto
the resulting arrays overwrites it with 2. -/
theorem C3_counterexample :
    get_SNRs_FLUXs ["K".toList] ["K".toList]
      [sentinel] [sentinel] [1] [1] [sentinel] [1] [sentinel] [1] [sentinel] [1] =
      some ([1], [1], [1], [1], [1]) ∧
    get_SNRs_FLUXs ["K".toList] ["K".toList] [1] [1] [2] [2] [1] [2] [1] [2] [1] [2] =
      some ([2], [2], [2], [2], [2]) ∧
    (1 : ℚ) ≠ 2 :=
  ⟨by decide, by decide, by decide⟩

/-- C3 (amended): a later join leaves a master-list position unchanged
exactly when that position's key matches no row of the later catalog: if
a single-source join succeeds, every position whose key does not occur
in the catalog's key column keeps its current value (in particular a
value set by an earlier join); a position whose key does occur in the
later catalog is overwritten by it, so the LAST join wins, not the
higher-priority one. -/
theorem C3_amended (all_AP detect_AP : List Str)
    (a1 a2 a3 a4 a5 d1 d2 d3 d4 d5 o1 o2 o3 o4 o5 : List ℚ)
    (hrun : get_SNRs_FLUXs all_AP detect_AP a1 a2 d1 d2 a3 d3 a4 d4 a5 d5 =
      some (o1, o2, o3, o4, o5))
    (i : Nat) (hnot : all_AP.getD i [] ∉ detect_AP) :
    o1.getD i 0 = a1.getD i 0 ∧ o2.getD i 0 = a2.getD i 0 ∧
    o3.getD i 0 = a3.getD i 0 ∧ o4.getD i 0 = a4.getD i 0 ∧
    o5.getD i 0 = a5.getD i 0 := by
  obtain ⟨h1, h2, h3, h4, h5⟩ :=
    get_SNRs_FLUXs_components _ _ _ _ _ _ _ _ _ _ _ _ _ _ _ _ _ hrun
  have hni := not_mem_idx2 all_AP detect_AP i hnot
  exact ⟨npAssign_not_mem _ _ _ _ _ _ h1 hni, npAssign_not_mem _ _ _ _ _ _ h2 hni,
    npAssign_not_mem _ _ _ _ _ _ h3 hni, npAssign_not_mem _ _ _ _ _ _ h4 hni,
    npAssign_not_mem _ _ _ _ _ _ h5 hni⟩

/-- C3 (witness): the amended claim applied to a concrete later join
(catalog with single key "B") and the position 0 holding key "A", whose
previously joined value 3 is preserved. -/
theorem C3_amended_witness :
    get_SNRs_FLUXs ["A".toList, "B".toList] ["B".toList]
      [3, 0] [3, 0] [5] [6] [3, 0] [7] [3, 0] [8] [3, 0] [9] =
      some ([3, 5], [3, 6], [3, 7], [3, 8], [3, 9]) ∧
    (["A".toList, "B".toList] : List Str).getD 0 [] ∉ ([("B".toList : Str)] : List Str) ∧
    (([3, 5] : List ℚ).getD 0 0 = ([3, 0] : List ℚ).getD 0 0 ∧
     ([3, 6] : List ℚ).getD 0 0 = ([3, 0] : List ℚ).getD 0 0 ∧
     ([3, 7] : List ℚ).getD 0 0 = ([3, 0] : List ℚ).getD 0 0 ∧
     ([3, 8] : List ℚ).getD 0 0 = ([3, 0] : List ℚ).getD 0 0 ∧
     ([3, 9] : List ℚ).getD 0 0 = ([3, 0] : List ℚ).getD 0 0) :=
  ⟨by decide, by decide,
    C3_amended ["A".toList, "B".toList] ["B".toList]
      [3, 0] [3, 0] [3, 0] [3, 0] [3, 0] [5] [6] [7] [8] [9]
      [3, 5] [3, 6] [3, 7] [3, 8] [3, 9] (by decide) 0 (by decide)⟩

/- ### Claim C9 -/

theorem get_LMIN0_LMAX0_sym (all_AP detect_AP : List Str) (am dm ax dx : List ℚ)
    (r : List ℚ × List ℚ × List ℚ × List ℚ)
    (h : get_LMIN0_LMAX0 all_AP detect_AP am dm ax dx am dm ax dx = some r) :
    r.1 = r.2.2.1 ∧ r.2.1 = r.2.2.2 := by
  simp only [get_LMIN0_LMAX0] at h
  cases e1 : npAssign am (idx2 all_AP detect_AP) (gets dm (idx1 all_AP detect_AP)) with
  | none => rw [e1] at h; exact Option.noConfusion h
  | some x =>
  rw [e1] at h
  cases e2 : npAssign ax (idx2 all_AP detect_AP) (gets dx (idx1 all_AP detect_AP)) with
  | none => rw [e2] at h; exact Option.noConfusion h
  | some y =>
  rw [e2] at h
  have h2 : (some (x, y, x, y) : Option _) = some r := h
  rw [← Option.some.inj h2]
  exact ⟨rfl, rfl⟩

/-- C9: in the driver's four single-source wavelength joins, every call
passes the same catalog column for the MMT and KECK detect parameters of
get_LMIN0_LMAX0, so after the four joins (and before the merged resolver
runs) the MMT_LMIN0 and KECK_LMIN0 arrays are equal, as are MMT_LMAX0
and KECK_LMAX0 — in particular they agree at every position touched by
any single-source join. -/
theorem C9_driver_symmetric (AP MMTallAP MMTsingleAP DEIMOSAP DEIMOS00AP : List Str)
    (MMTallLMIN0 MMTallLMAX0 MMTsingleLMIN0 MMTsingleLMAX0
     DEIMOSLMIN0 DEIMOSLMAX0 DEIMOS00LMIN0 DEIMOS00LMAX0 : List ℚ)
    (res : List ℚ × List ℚ × List ℚ × List ℚ)
    (h : driverSingleJoins AP MMTallAP MMTsingleAP DEIMOSAP DEIMOS00AP
      MMTallLMIN0 MMTallLMAX0 MMTsingleLMIN0 MMTsingleLMAX0
      DEIMOSLMIN0 DEIMOSLMAX0 DEIMOS00LMIN0 DEIMOS00LMAX0 = some res) :
    res.1 = res.2.2.1 ∧ res.2.1 = res.2.2.2 := by
  simp only [driverSingleJoins] at h
  rcases Option.bind_eq_some.mp h with ⟨r1, e1, h⟩
  have s1 := get_LMIN0_LMAX0_sym _ _ _ _ _ _ _ e1
  rcases Option.bind_eq_some.mp h with ⟨r2, e2, h⟩
  rw [← s1.1, ← s1.2] at e2
  have s2 := get_LMIN0_LMAX0_sym _ _ _ _ _ _ _ e2
  rcases Option.bind_eq_some.mp h with ⟨r3, e3, h⟩
  rw [← s2.1, ← s2.2] at e3
  have s3 := get_LMIN0_LMAX0_sym _ _ _ _ _ _ _ e3
  rcases Option.bind_eq_some.mp h with ⟨r4, e4, h⟩
  rw [← s3.1, ← s3.2] at e4
  have s4 := get_LMIN0_LMAX0_sym _ _ _ _ _ _ _ e4
  have h2 : r4 = res := Option.some.inj h
  rw [← h2]
  exact s4

/-- C9 (witness): the claim applied to a concrete driver run with one
master key "S.123" matched by the MMTall catalog; the resulting KECK
arrays equal the MMT arrays. -/
theorem C9_driver_symmetric_witness :
    driverSingleJoins ["S.123".toList] ["S.123".toList] [] [] []
      [1] [2] [] [] [] [] [] [] = some ([1], [2], [1], [2]) ∧
    (([1], [2], [1], [2]) : List ℚ × List ℚ × List ℚ × List ℚ).1 =
      (([1], [2], [1], [2]) : List ℚ × List ℚ × List ℚ × List ℚ).2.2.1 :=
  ⟨by decide,
    (C9_driver_symmetric ["S.123".toList] ["S.123".toList] [] [] []
      [1] [2] [] [] [] [] [] [] ([1], [2], [1], [2]) (by decide)).1⟩

/- ### Merged-resolver claims -/

theorem splitOnComma_ne_nil : ∀ s : Str, splitOnComma s ≠ []
  | [] => by simp [splitOnComma]
  | c :: rest => by
    cases hsk : splitOnComma rest with
    | nil => exact absurd hsk (splitOnComma_ne_nil rest)
    | cons g gs =>
      by_cases hc : c = ','
      · simp [splitOnComma, hsk, hc]
      · simp [splitOnComma, hsk, hc]

theorem splitOnComma_no_comma : ∀ k : Str, ',' ∉ k → splitOnComma k = [k] := by
  intro k
  induction k with
  | nil => intro _; rfl
  | cons c rest ih =>
    intro h
    have hc : ¬ c = ',' := fun hc => h (hc ▸ List.mem_cons_self c rest)
    have hr : splitOnComma rest = [rest] :=
      ih (fun hm => h (List.mem_cons_of_mem c hm))
    simp [splitOnComma, hr, hc]

theorem splitOnComma_append : ∀ (m k : Str), ',' ∉ m →
    splitOnComma (m ++ ',' :: k) = m :: splitOnComma k := by
  intro m k
  induction m with
  | nil =>
    intro _
    cases hsk : splitOnComma k with
    | nil => exact absurd hsk (splitOnComma_ne_nil k)
    | cons g gs => simp [splitOnComma, hsk]
  | cons c rest ih =>
    intro h
    have hc : ¬ c = ',' := fun hc => h (hc ▸ List.mem_cons_self c rest)
    have hr := ih (fun hm => h (List.mem_cons_of_mem c hm))
    cases hsk : splitOnComma (rest ++ ',' :: k) with
    | nil => exact absurd hsk (splitOnComma_ne_nil _)
    | cons g gs =>
      rw [hsk] at hr
      rcases List.cons.injEq g gs rest (splitOnComma k) ▸ hr with ⟨hg, hgs⟩
      simp [splitOnComma, hsk, hc, hg, hgs]


theorem mergedSide_primary_independent (jj : List Nat) (capAP1 capAP2 capAP2' : List Str)
    (c1min c1max c2min c2max c2min' c2max' : List ℚ) (key : Str) (lmin lmax : List ℚ)
    (h : key ∈ capAP1) :
    mergedSide jj capAP1 capAP2 c1min c1max c2min c2max key lmin lmax =
    mergedSide jj capAP1 capAP2' c1min c1max c2min' c2max' key lmin lmax := by
  have hne : positionsOf capAP1 key ≠ [] := (positionsOf_ne_nil _ _).mpr h
  simp only [mergedSide]
  rw [if_pos hne, if_pos hne]

theorem mergedSide_nomatch (jj : List Nat) (capAP1 capAP2 : List Str)
    (c1min c1max c2min c2max : List ℚ) (key : Str) (lmin lmax : List ℚ)
    (h1 : key ∉ capAP1) (h2 : key ∉ capAP2) :
    mergedSide jj capAP1 capAP2 c1min c1max c2min c2max key lmin lmax =
      some (lmin, lmax) := by
  have e1 : positionsOf capAP1 key = [] := by
    by_contra hne
    exact h1 ((positionsOf_ne_nil _ _).mp hne)
  have e2 : positionsOf capAP2 key = [] := by
    by_contra hne
    exact h2 ((positionsOf_ne_nil _ _).mp hne)
  have hnn : ¬ (([] : List Nat) ≠ []) := fun hh => hh rfl
  simp only [mergedSide]
  rw [e1, e2, if_neg hnn, if_neg hnn]

theorem mergedSide_single (jj : List Nat) (capAP1 capAP2 : List Str)
    (c1min c1max c2min c2max : List ℚ) (key : Str) (lmin lmax : List ℚ)
    (r : Nat) (hr : positionsOf capAP1 key = [r]) :
    mergedSide jj capAP1 capAP2 c1min c1max c2min c2max key lmin lmax =
      some (npSetAll lmin jj (c1min.getD r 0), npSetAll lmax jj (c1max.getD r 0)) := by
  simp only [mergedSide]
  rw [hr, if_pos (by simp : ([r] : List Nat) ≠ [])]
  rw [show gets c1min [r] = [c1min.getD r 0] from rfl,
    show gets c1max [r] = [c1max.getD r 0] from rfl,
    npAssign_single, npAssign_single]
  rfl

theorem mergedStep_split (all_AP MMTallAP MMTsingleAP DEIMOSAP DEIMOS00AP : List Str)
    (MMTallLMIN0 MMTallLMAX0 MMTsingleLMIN0 MMTsingleLMAX0
     DEIMOSLMIN0 DEIMOSLMAX0 DEIMOS00LMIN0 DEIMOS00LMAX0 : List ℚ)
    (st : List ℚ × List ℚ × List ℚ × List ℚ) (m k : Str)
    (hm : ',' ∉ m) (hk : ',' ∉ k) :
    mergedStep all_AP MMTallAP MMTsingleAP DEIMOSAP DEIMOS00AP
      MMTallLMIN0 MMTallLMAX0 MMTsingleLMIN0 MMTsingleLMAX0
      DEIMOSLMIN0 DEIMOSLMAX0 DEIMOS00LMIN0 DEIMOS00LMAX0 st (m ++ ',' :: k) =
    (mergedSide (positionsWhere (fun a => decide (m = a.take 5)) all_AP)
        MMTallAP MMTsingleAP MMTallLMIN0 MMTallLMAX0
        MMTsingleLMIN0 MMTsingleLMAX0 m st.1 st.2.1).bind fun mm =>
    (mergedSide (positionsWhere (fun a => decide (m = a.take 5)) all_AP)
        DEIMOSAP DEIMOS00AP DEIMOSLMIN0 DEIMOSLMAX0
        DEIMOS00LMIN0 DEIMOS00LMAX0 k st.2.2.1 st.2.2.2).bind fun kk =>
    some (mm.1, mm.2, kk.1, kk.2) := by
  simp only [mergedStep, splitOnComma_append m k hm, splitOnComma_no_comma k hk,
    List.get?_cons_succ, List.get?_cons_zero, List.getD_cons_zero]

/-- C5: the merged-record resolver splits each merged key at the comma
delimiter into an instrument-1 code m and an instrument-2 code k; the
instrument-1 side is looked up in the primary MMT catalog (MMTall)
first — when that catalog has a matching row, the secondary catalog
(MMTsingle: keys and values) has no influence on the result — and
independently the instrument-2 side consults the primary DEIMOS catalog
first, DEIMOS00 having no influence when DEIMOS matches; when neither
catalog of a pair has a matching row, that pair of output arrays keeps
its current value. -/
theorem C5_merged_fallback
    (all_AP MMTallAP MMTsingleAP DEIMOSAP DEIMOS00AP : List Str)
    (MMTallLMIN0 MMTallLMAX0 MMTsingleLMIN0 MMTsingleLMAX0
     DEIMOSLMIN0 DEIMOSLMAX0 DEIMOS00LMIN0 DEIMOS00LMAX0 : List ℚ)
    (st : List ℚ × List ℚ × List ℚ × List ℚ) (m k : Str)
    (hm : ',' ∉ m) (hk : ',' ∉ k) :
    (m ∈ MMTallAP → ∀ MMTsingleAP2 MMTsingleLMIN02 MMTsingleLMAX02,
      mergedStep all_AP MMTallAP MMTsingleAP DEIMOSAP DEIMOS00AP
        MMTallLMIN0 MMTallLMAX0 MMTsingleLMIN0 MMTsingleLMAX0
        DEIMOSLMIN0 DEIMOSLMAX0 DEIMOS00LMIN0 DEIMOS00LMAX0 st (m ++ ',' :: k) =
      mergedStep all_AP MMTallAP MMTsingleAP2 DEIMOSAP DEIMOS00AP
        MMTallLMIN0 MMTallLMAX0 MMTsingleLMIN02 MMTsingleLMAX02
        DEIMOSLMIN0 DEIMOSLMAX0 DEIMOS00LMIN0 DEIMOS00LMAX0 st (m ++ ',' :: k)) ∧
    (k ∈ DEIMOSAP → ∀ DEIMOS00AP2 DEIMOS00LMIN02 DEIMOS00LMAX02,
      mergedStep all_AP MMTallAP MMTsingleAP DEIMOSAP DEIMOS00AP
        MMTallLMIN0 MMTallLMAX0 MMTsingleLMIN0 MMTsingleLMAX0
        DEIMOSLMIN0 DEIMOSLMAX0 DEIMOS00LMIN0 DEIMOS00LMAX0 st (m ++ ',' :: k) =
      mergedStep all_AP MMTallAP MMTsingleAP DEIMOSAP DEIMOS00AP2
        MMTallLMIN0 MMTallLMAX0 MMTsingleLMIN0 MMTsingleLMAX0
        DEIMOSLMIN0 DEIMOSLMAX0 DEIMOS00LMIN02 DEIMOS00LMAX02 st (m ++ ',' :: k)) ∧
    (m ∉ MMTallAP → m ∉ MMTsingleAP →
      ∀ out, mergedStep all_AP MMTallAP MMTsingleAP DEIMOSAP DEIMOS00AP
        MMTallLMIN0 MMTallLMAX0 MMTsingleLMIN0 MMTsingleLMAX0
        DEIMOSLMIN0 DEIMOSLMAX0 DEIMOS00LMIN0 DEIMOS00LMAX0 st (m ++ ',' :: k) =
        some out → out.1 = st.1 ∧ out.2.1 = st.2.1) ∧
    (k ∉ DEIMOSAP → k ∉ DEIMOS00AP →
      ∀ out, mergedStep all_AP MMTallAP MMTsingleAP DEIMOSAP DEIMOS00AP
        MMTallLMIN0 MMTallLMAX0 MMTsingleLMIN0 MMTsingleLMAX0
        DEIMOSLMIN0 DEIMOSLMAX0 DEIMOS00LMIN0 DEIMOS00LMAX0 st (m ++ ',' :: k) =
        some out → out.2.2.1 = st.2.2.1 ∧ out.2.2.2 = st.2.2.2) := by
  refine ⟨?_, ?_, ?_, ?_⟩
  · intro hmem S2 v2 w2
    rw [mergedStep_split all_AP MMTallAP MMTsingleAP DEIMOSAP DEIMOS00AP
        MMTallLMIN0 MMTallLMAX0 MMTsingleLMIN0 MMTsingleLMAX0
        DEIMOSLMIN0 DEIMOSLMAX0 DEIMOS00LMIN0 DEIMOS00LMAX0 st m k hm hk,
      mergedStep_split all_AP MMTallAP S2 DEIMOSAP DEIMOS00AP
        MMTallLMIN0 MMTallLMAX0 v2 w2
        DEIMOSLMIN0 DEIMOSLMAX0 DEIMOS00LMIN0 DEIMOS00LMAX0 st m k hm hk,
      mergedSide_primary_independent _ MMTallAP MMTsingleAP S2
        MMTallLMIN0 MMTallLMAX0 MMTsingleLMIN0 MMTsingleLMAX0 v2 w2 m st.1 st.2.1 hmem]
  · intro hmem S2 v2 w2
    rw [mergedStep_split all_AP MMTallAP MMTsingleAP DEIMOSAP DEIMOS00AP
        MMTallLMIN0 MMTallLMAX0 MMTsingleLMIN0 MMTsingleLMAX0
        DEIMOSLMIN0 DEIMOSLMAX0 DEIMOS00LMIN0 DEIMOS00LMAX0 st m k hm hk,
      mergedStep_split all_AP MMTallAP MMTsingleAP DEIMOSAP S2
        MMTallLMIN0 MMTallLMAX0 MMTsingleLMIN0 MMTsingleLMAX0
        DEIMOSLMIN0 DEIMOSLMAX0 v2 w2 st m k hm hk,
      mergedSide_primary_independent _ DEIMOSAP DEIMOS00AP S2
        DEIMOSLMIN0 DEIMOSLMAX0 DEIMOS00LMIN0 DEIMOS00LMAX0 v2 w2 k st.2.2.1 st.2.2.2 hmem]
  · intro hma hms out hrun
    rw [mergedStep_split all_AP MMTallAP MMTsingleAP DEIMOSAP DEIMOS00AP
        MMTallLMIN0 MMTallLMAX0 MMTsingleLMIN0 MMTsingleLMAX0
        DEIMOSLMIN0 DEIMOSLMAX0 DEIMOS00LMIN0 DEIMOS00LMAX0 st m k hm hk,
      mergedSide_nomatch _ MMTallAP MMTsingleAP MMTallLMIN0 MMTallLMAX0
        MMTsingleLMIN0 MMTsingleLMAX0 m st.1 st.2.1 hma hms] at hrun
    rcases Option.bind_eq_some.mp hrun with ⟨mm, hmmEq, hrun2⟩
    have hmmv : mm = (st.1, st.2.1) := (Option.some.inj hmmEq).symm
    rcases Option.bind_eq_some.mp hrun2 with ⟨kk, hkkEq, hout⟩
    rw [← Option.some.inj hout, hmmv]
    exact ⟨rfl, rfl⟩
  · intro hka hks out hrun
    rw [mergedStep_split all_AP MMTallAP MMTsingleAP DEIMOSAP DEIMOS00AP
        MMTallLMIN0 MMTallLMAX0 MMTsingleLMIN0 MMTsingleLMAX0
        DEIMOSLMIN0 DEIMOSLMAX0 DEIMOS00LMIN0 DEIMOS00LMAX0 st m k hm hk,
      mergedSide_nomatch _ DEIMOSAP DEIMOS00AP DEIMOSLMIN0 DEIMOSLMAX0
        DEIMOS00LMIN0 DEIMOS00LMAX0 k st.2.2.1 st.2.2.2 hka hks] at hrun
    rcases Option.bind_eq_some.mp hrun with ⟨mm, hmmEq, hrun2⟩
    have hrun3 : (some (mm.1, mm.2, st.2.2.1, st.2.2.2) :
        Option (List ℚ × List ℚ × List ℚ × List ℚ)) = some out := hrun2
    rw [← Option.some.inj hrun3]
    exact ⟨rfl, rfl⟩

/-- C5 (witness): the fallback conjuncts applied to a concrete merged
key "AA,BB" with all four catalogs empty: the state is returned
unchanged. -/
theorem C5_merged_fallback_witness :
    (("AA".toList : Str) ∉ ([] : List Str)) ∧
    mergedStep [] [] [] [] [] [] [] [] [] [] [] [] []
      (([1], [2], [3], [4]) : List ℚ × List ℚ × List ℚ × List ℚ)
      ("AA".toList ++ ',' :: "BB".toList) = some ([1], [2], [3], [4]) ∧
    (([1] : List ℚ) = [1] ∧ ([2] : List ℚ) = [2]) :=
  ⟨by decide, by decide,
    (C5_merged_fallback [] [] [] [] [] [] [] [] [] [] [] [] []
      (([1], [2], [3], [4])) "AA".toList "BB".toList (by decide) (by decide)).2.2.1
      (by decide) (by decide) (([1], [2], [3], [4])) (by decide)⟩

/-- C10: the merged-record resolver selects its target master-list
positions by comparing the merged key's instrument-1 component m with
only the FIRST FIVE characters of each canonical aperture key, not by
full-key equality: when the primary MMT catalog holds m at exactly one
row r and the resolver step succeeds, every master position whose key
merely shares that 5-character beginning — including positions holding
non-merged single-instrument keys different from the merged key — has
its MMT wavelength fields overwritten with row r's values, while every
position not sharing it keeps its current MMT wavelength values. -/
theorem C10_prefix_selection
    (all_AP MMTallAP MMTsingleAP DEIMOSAP DEIMOS00AP : List Str)
    (MMTallLMIN0 MMTallLMAX0 MMTsingleLMIN0 MMTsingleLMAX0
     DEIMOSLMIN0 DEIMOSLMAX0 DEIMOS00LMIN0 DEIMOS00LMAX0 : List ℚ)
    (st : List ℚ × List ℚ × List ℚ × List ℚ) (m k : Str)
    (hm : ',' ∉ m) (hk : ',' ∉ k) (r : Nat)
    (hr : positionsOf MMTallAP m = [r])
    (hlen1 : st.1.length = all_AP.length) (hlen2 : st.2.1.length = all_AP.length)
    (out : List ℚ × List ℚ × List ℚ × List ℚ)
    (hrun : mergedStep all_AP MMTallAP MMTsingleAP DEIMOSAP DEIMOS00AP
      MMTallLMIN0 MMTallLMAX0 MMTsingleLMIN0 MMTsingleLMAX0
      DEIMOSLMIN0 DEIMOSLMAX0 DEIMOS00LMIN0 DEIMOS00LMAX0 st (m ++ ',' :: k) =
      some out) :
    ∀ x, x < all_AP.length →
      (m = (all_AP.getD x []).take 5 →
        out.1.getD x 0 = MMTallLMIN0.getD r 0 ∧
        out.2.1.getD x 0 = MMTallLMAX0.getD r 0) ∧
      (¬ m = (all_AP.getD x []).take 5 →
        out.1.getD x 0 = st.1.getD x 0 ∧
        out.2.1.getD x 0 = st.2.1.getD x 0) := by
  rw [mergedStep_split all_AP MMTallAP MMTsingleAP DEIMOSAP DEIMOS00AP
      MMTallLMIN0 MMTallLMAX0 MMTsingleLMIN0 MMTsingleLMAX0
      DEIMOSLMIN0 DEIMOSLMAX0 DEIMOS00LMIN0 DEIMOS00LMAX0 st m k hm hk,
    mergedSide_single _ MMTallAP MMTsingleAP MMTallLMIN0 MMTallLMAX0
      MMTsingleLMIN0 MMTsingleLMAX0 m st.1 st.2.1 r hr] at hrun
  rcases Option.bind_eq_some.mp hrun with ⟨mm, hmmEq, hrun2⟩
  have hmmv : mm =
      (npSetAll st.1 (positionsWhere (fun a => decide (m = a.take 5)) all_AP)
        (MMTallLMIN0.getD r 0),
       npSetAll st.2.1 (positionsWhere (fun a => decide (m = a.take 5)) all_AP)
        (MMTallLMAX0.getD r 0)) := (Option.some.inj hmmEq).symm
  rcases Option.bind_eq_some.mp hrun2 with ⟨kk, hkkEq, hout⟩
  have hoc : (mm.1, mm.2, kk.1, kk.2) = out := Option.some.inj hout
  intro x hx
  constructor
  · intro hpm
    have hxj : x ∈ positionsWhere (fun a => decide (m = a.take 5)) all_AP :=
      (mem_positionsWhere _ _ _).mpr ⟨hx, by simpa using hpm⟩
    rw [← hoc, hmmv]
    exact ⟨npSetAll_mem _ _ _ _ _ hxj (by rw [hlen1]; exact hx),
      npSetAll_mem _ _ _ _ _ hxj (by rw [hlen2]; exact hx)⟩
  · intro hpm
    have hxj : x ∉ positionsWhere (fun a => decide (m = a.take 5)) all_AP := by
      intro hmem
      rcases (mem_positionsWhere _ _ _).mp hmem with ⟨_, hp⟩
      exact hpm (by simpa using hp)
    rw [← hoc, hmmv]
    exact ⟨npSetAll_not_mem _ _ _ _ _ hxj, npSetAll_not_mem _ _ _ _ _ hxj⟩

/-- C10 (witness): concrete run where the merged key "S.123,ABCDEF"
resolves against the single MMTall row "S.123" with values 7 and 8;
master position 1 holds the non-merged single-instrument key "S.123",
which shares the 5-character beginning, and its MMT wavelength fields
are overwritten with 7 and 8. -/
theorem C10_prefix_selection_witness :
    positionsOf ["S.123".toList] "S.123".toList = [0] ∧
    mergedStep ["S.123,ABCDEF".toList, "S.123".toList] ["S.123".toList] [] [] []
      [7] [8] [] [] [] [] [] []
      (([0, 0], [0, 0], [0, 0], [0, 0]) : List ℚ × List ℚ × List ℚ × List ℚ)
      ("S.123".toList ++ ',' :: "ABCDEF".toList) =
      some (([7, 7], [8, 8], [0, 0], [0, 0])) ∧
    (("S.123".toList : Str) =
      ((["S.123,ABCDEF".toList, "S.123".toList] : List Str).getD 1 []).take 5) ∧
    (([7, 7] : List ℚ).getD 1 0 = ([7] : List ℚ).getD 0 0 ∧
     ([8, 8] : List ℚ).getD 1 0 = ([8] : List ℚ).getD 0 0) :=
  ⟨by decide, by decide, by decide,
    ((C10_prefix_selection ["S.123,ABCDEF".toList, "S.123".toList] ["S.123".toList]
      [] [] [] [7] [8] [] [] [] [] [] []
      (([0, 0], [0, 0], [0, 0], [0, 0])) "S.123".toList "ABCDEF".toList
      (by decide) (by decide) 0 (by decide) (by decide) (by decide)
      (([7, 7], [8, 8], [0, 0], [0, 0])) (by decide)) 1 (by decide)).1 (by decide)⟩
